import Mathlib

/-!
Verification development for the EasyPySpin camera library.

The Python sources (`EasyPySpin/videocapture.py`, `EasyPySpin/videocaptureex.py`)
are shallowly embedded below:

* Device property nodes (`PySpin` GenICam nodes) become a `Node` structure held
  in an association list keyed by node name; Python scalars become `PyValue`
  (Python `int` as `Int`, `float` as `Rat`, `bool`, `str`).
* The camera wrapper object (`VideoCapture` / `VideoCaptureEX`) becomes the
  `CamState` structure.  Warnings emitted through `utils.warn` are accumulated
  in `CamState.warnings` (most recent first); the textual content of a warning
  is modelled by a fixed descriptive string, Python's f-string interpolation of
  runtime values into the message is not modelled.
* The external Spinnaker driver calls consumed by `grab` are modelled by a
  script `CamState.driver : List DriverEvent`: each `GetNextImage` call
  consumes one event, which is either a delivered image (with its completeness
  flag) or a timeout.  Per the Spinnaker/PySpin interface, `GetNextImage`
  raises a `SpinnakerException` when the timeout expires before an image
  arrives; an exhausted script is treated the same way.  Exceptions are
  modelled by `Outcome.exc`, which still records the mutated state.
* `mergeHDR` is a pure numpy computation; it is embedded per pixel over the
  real numbers (`mergePixel`, `mergeHDR`), with `np.exp` as `Real.exp`.
-/

open scoped Classical

/-- A Python scalar value as accepted/returned by the node get/set helpers. -/
inductive PyValue where
  | vint (n : Int)
  | vfloat (q : Rat)
  | vbool (b : Bool)
  | vstr (s : String)
  | vnone
  deriving DecidableEq, Repr

/-- Kind of a GenICam node (`PySpin.IInteger`, `IFloat`, `IBoolean`,
`IEnumeration`, `IString`). -/
inductive NodeKind where
  | integer
  | float
  | boolean
  | enumeration
  | string
  deriving DecidableEq, Repr

/-- One named device node.  Integer nodes report integer bounds
(`zmin`/`zmax`, from `GetMin`/`GetMax`); float nodes report rational bounds
(`qmin`/`qmax`).  `hasSetValue`/`hasGetValue` model Python's `hasattr`
checks on the node object. -/
structure Node where
  kind : NodeKind
  writable : Bool := true
  readable : Bool := true
  hasSetValue : Bool := true
  hasGetValue : Bool := true
  zmin : Int := 0
  zmax : Int := 0
  qmin : Rat := 0
  qmax : Rat := 0
  value : PyValue
  deriving DecidableEq, Repr

/-- A decoded image: flat list of pixel values (`GetNDArray`). -/
abbrev Frame : Type := List Rat

/-- One scripted outcome of a `GetNextImage` driver call: a delivered image
together with `IsIncomplete` information, or a timeout. -/
inductive DriverEvent where
  | img (f : Frame) (complete : Bool)
  | timeout
  deriving DecidableEq, Repr

/-- State of one `VideoCapture`/`VideoCaptureEX` object together with its
camera.  `average_num` is the private `VideoCaptureEX.__average_num`
(class default 1); `triggersExecuted` counts `TriggerSoftware.Execute()`
calls; `pyspinImage` is the `_pyspin_image` attribute (absent = `none`). -/
structure CamState where
  opened : Bool := true
  nodes : List (String × Node) := []
  streaming : Bool := false
  auto_software_trigger_execute : Bool := false
  average_num : Int := 1
  pyspinImage : Option Frame := none
  driver : List DriverEvent := []
  triggersExecuted : Nat := 0
  warnings : List String := []
  deriving DecidableEq, Repr

/-- `utils.warn`: record a warning message. -/
def warn (s : CamState) (msg : String) : CamState :=
  { s with warnings := msg :: s.warnings }

/-- `getattr(self.cam, node_name)` on the association list of nodes. -/
def findNode : List (String × Node) → String → Option Node
  | [], _ => none
  | (n, nd) :: rest, name => if n = name then some nd else findNode rest name

/-- Overwrite the stored value of the named node (the effect of a successful
`node.SetValue(value)`). -/
def writeNode : List (String × Node) → String → PyValue → List (String × Node)
  | [], _, _ => []
  | (n, nd) :: rest, name, v =>
    if n = name then (n, { nd with value := v }) :: writeNode rest name v
    else (n, nd) :: writeNode rest name v

/-- Commit a value to a node of the camera state. -/
def commitNode (s : CamState) (name : String) (v : PyValue) : CamState :=
  { s with nodes := writeNode s.nodes name v }

/-- The global `PySpin` enumeration constants used by this code base, as
resolved by `getattr(PySpin, f"{node_name}_{value}")`.  The integer codes
model the opaque `PySpin` enumeration integers; only their per-node
distinctness matters. -/
def pyspinEnumTable : List (String × Int) :=
  [("TriggerSelector_FrameStart", 0),
   ("TriggerSelector_FrameBurstStart", 1),
   ("TriggerMode_Off", 0),
   ("TriggerMode_On", 1),
   ("TriggerSource_Line0", 0),
   ("TriggerSource_Software", 1),
   ("ExposureAuto_Off", 0),
   ("ExposureAuto_Once", 1),
   ("ExposureAuto_Continuous", 2),
   ("GainAuto_Off", 0),
   ("GainAuto_Once", 1),
   ("GainAuto_Continuous", 2)]

/-- Resolve `PySpin.{name}` in the table. -/
def findEnum : List (String × Int) → String → Option Int
  | [], _ => none
  | (n, c) :: rest, name => if n = name then some c else findEnum rest name

/-- `VideoCapture.isOpened`. -/
def isOpened (s : CamState) : Bool :=
  s.opened

/-- `VideoCapture.get_pyspin_value`: returns the stored value after the
open/attribute/readable checks.  The Python code returns the Python `False`
when the camera is not open and `None` on the other failure paths. -/
def get_pyspin_value (s : CamState) (node_name : String) : PyValue × CamState :=
  if ¬ isOpened s then (PyValue.vbool false, warn s "Camera is not open")
  else
    match findNode s.nodes node_name with
    | none => (PyValue.vnone, warn s "object has no attribute")
    | some nd =>
      if ¬ nd.hasGetValue then
        (PyValue.vnone, warn s "object has no attribute GetValue")
      else if ¬ nd.readable then
        (PyValue.vnone, warn s "node is not readable")
      else (nd.value, s)

/-- `VideoCapture.set_pyspin_value`: open/attribute/writable checks, value
type check per node kind (with enumeration-symbol resolution through
`pyspinEnumTable`), clipping into `[GetMin, GetMax]` for Integer and Float
nodes (with a warning when the clip changed the value), then `SetValue`.
The committed `SetValue` itself is assumed to succeed (its
`SpinnakerException` branch is driver failure, outside this model); the
single-element `np.ndarray` unwrapping is not modelled. -/
def set_pyspin_value (s : CamState) (node_name : String) (value : PyValue) :
    Bool × CamState :=
  if ¬ isOpened s then (false, warn s "Camera is not open")
  else
    match findNode s.nodes node_name with
    | none => (false, warn s "object has no attribute")
    | some nd =>
      if ¬ nd.hasSetValue then
        (false, warn s "object has no attribute SetValue")
      else if ¬ nd.writable then
        (false, warn s "node is not writable")
      else
        match nd.kind with
        | NodeKind.integer =>
          match value with
          | PyValue.vint n =>
            let c := min (max n nd.zmin) nd.zmax
            let s := if c ≠ n then warn s "value out of range, clipped" else s
            (true, commitNode s node_name (PyValue.vint c))
          | _ => (false, warn s "value must be int")
        | NodeKind.float =>
          match value with
          | PyValue.vint n =>
            let c := min (max (n : Rat) nd.qmin) nd.qmax
            let s := if c ≠ (n : Rat) then warn s "value out of range, clipped" else s
            (true, commitNode s node_name (PyValue.vfloat c))
          | PyValue.vfloat q =>
            let c := min (max q nd.qmin) nd.qmax
            let s := if c ≠ q then warn s "value out of range, clipped" else s
            (true, commitNode s node_name (PyValue.vfloat c))
          | _ => (false, warn s "value must be int or float")
        | NodeKind.boolean =>
          match value with
          | PyValue.vbool b => (true, commitNode s node_name (PyValue.vbool b))
          | _ => (false, warn s "value must be bool")
        | NodeKind.enumeration =>
          match value with
          | PyValue.vstr sym =>
            match findEnum pyspinEnumTable (node_name ++ "_" ++ sym) with
            | some code => (true, commitNode s node_name (PyValue.vint code))
            | none => (false, warn s "PySpin object has no such attribute")
          | PyValue.vint n => (true, commitNode s node_name (PyValue.vint n))
          | _ => (false, warn s "value must be PySpin Enumeration")
        | NodeKind.string =>
          (true, commitNode s node_name value)

/-- The value committed for a numeric node after range clipping, i.e. the
Python expression `min(max(value, v_min), v_max)` at the node's bounds. -/
def clipToNode (nd : Node) (v : PyValue) : PyValue :=
  match nd.kind, v with
  | NodeKind.integer, PyValue.vint n => PyValue.vint (min (max n nd.zmin) nd.zmax)
  | NodeKind.float, PyValue.vint n => PyValue.vfloat (min (max (n : Rat) nd.qmin) nd.qmax)
  | NodeKind.float, PyValue.vfloat q => PyValue.vfloat (min (max q nd.qmin) nd.qmax)
  | _, _ => v

/-- The value `v` fits the numeric node kind `k` (the type check of
`set_pyspin_value` accepts it): `int` for Integer nodes, `int` or `float`
for Float nodes. -/
def fitsNumericKind (k : NodeKind) (v : PyValue) : Prop :=
  match k, v with
  | NodeKind.integer, PyValue.vint _ => True
  | NodeKind.float, PyValue.vint _ => True
  | NodeKind.float, PyValue.vfloat _ => True
  | _, _ => False

/-- The node's reported bounds are coherent (`GetMin ≤ GetMax`). -/
def boundsOk (nd : Node) : Prop :=
  match nd.kind with
  | NodeKind.integer => nd.zmin ≤ nd.zmax
  | NodeKind.float => nd.qmin ≤ nd.qmax
  | _ => True

/-- The numeric value `v` lies outside the node's reported `[min, max]`. -/
def outOfRange (nd : Node) (v : PyValue) : Prop :=
  match nd.kind, v with
  | NodeKind.integer, PyValue.vint n => n < nd.zmin ∨ nd.zmax < n
  | NodeKind.float, PyValue.vint n => (n : Rat) < nd.qmin ∨ nd.qmax < (n : Rat)
  | NodeKind.float, PyValue.vfloat q => q < nd.qmin ∨ nd.qmax < q
  | _, _ => False

/-- A concrete `ExposureTime` float node (bounds as in the docstring example
`[20.0, 30000002.0]`, shortened). -/
def demoExposureNode : Node :=
  { kind := NodeKind.float, qmin := 20, qmax := 30000000,
    value := PyValue.vfloat 10000 }

/-- A concrete opened camera with the nodes used by the bracketing code. -/
def demoCam : CamState :=
  { opened := true,
    nodes :=
      [("TriggerSelector", { kind := NodeKind.enumeration, value := PyValue.vint 1 }),
       ("TriggerMode", { kind := NodeKind.enumeration, value := PyValue.vint 0 }),
       ("TriggerSource", { kind := NodeKind.enumeration, value := PyValue.vint 0 }),
       ("ExposureTime", demoExposureNode),
       ("ExposureAuto", { kind := NodeKind.enumeration, value := PyValue.vint 2 }),
       ("GainAuto", { kind := NodeKind.enumeration, value := PyValue.vint 2 }),
       ("Gain", { kind := NodeKind.float, qmin := 0, qmax := 47,
                  value := PyValue.vfloat 5 })] }

/-- Result of a Python call: normal return (`ok`) or a raised exception
(`exc`), each together with the camera state as mutated so far. -/
inductive Outcome (α : Type) where
  | ok (a : α) (s : CamState)
  | exc (msg : String) (s : CamState)
  deriving DecidableEq

/-- The camera state after the call, whether it returned or raised. -/
def Outcome.state {α : Type} : Outcome α → CamState
  | Outcome.ok _ s => s
  | Outcome.exc _ s => s

/-- The returned value of a call, `none` when it raised. -/
def Outcome.retOf {α : Type} : Outcome α → Option α
  | Outcome.ok a _ => some a
  | Outcome.exc _ _ => none

/-- Whether the call raised. -/
def Outcome.isExc {α : Type} : Outcome α → Bool
  | Outcome.ok _ _ => false
  | Outcome.exc _ _ => true

/-- The `PySpin.TriggerMode_On` enumeration code. -/
def triggerModeOnCode : Int := 1

/-- The `PySpin.TriggerSource_Software` enumeration code. -/
def triggerSourceSoftwareCode : Int := 1

/-- `PySpin.IsAvailable(self.cam.TriggerSoftware)`.  Modelled from the
source comment in `VideoCapture.grab`: the software trigger node is
available exactly when `TriggerMode` is `On` and `TriggerSource` is
`Software`. -/
def triggerSoftwareAvailable (s : CamState) : Bool :=
  decide ((findNode s.nodes "TriggerMode").map Node.value =
      some (PyValue.vint triggerModeOnCode) ∧
    (findNode s.nodes "TriggerSource").map Node.value =
      some (PyValue.vint triggerSourceSoftwareCode))

/-- `self.cam.BeginAcquisition()` when not yet streaming. -/
def beginAcq (s : CamState) : CamState :=
  if ¬ s.streaming then { s with streaming := true } else s

/-- The first phase of `VideoCapture.grab`: `BeginAcquisition` when not yet
streaming, then `TriggerSoftware.Execute()` when the software trigger is
available and `auto_software_trigger_execute` is set. -/
def grabPre (s : CamState) : CamState :=
  if triggerSoftwareAvailable (beginAcq s) &&
      (beginAcq s).auto_software_trigger_execute then
    { beginAcq s with triggersExecuted := (beginAcq s).triggersExecuted + 1 }
  else beginAcq s

/-- `VideoCapture.grab`: begin acquisition lazily, fire the software
trigger when available and requested (`grabPre`), then `GetNextImage`
(consume one driver event; a timeout raises a `SpinnakerException`, which
`grab` does not catch), store `_pyspin_image`, and return the completeness
flag. -/
def grab (s : CamState) : Outcome Bool :=
  if ¬ isOpened s then Outcome.ok false s
  else
    match (grabPre s).driver with
    | [] => Outcome.exc "SpinnakerException: GetNextImage timed out" (grabPre s)
    | DriverEvent.timeout :: rest =>
      Outcome.exc "SpinnakerException: GetNextImage timed out"
        { grabPre s with driver := rest }
    | DriverEvent.img f complete :: rest =>
      Outcome.ok complete
        { grabPre s with driver := rest, pyspinImage := some f }

/-- `VideoCapture.retrieve`: return the held `_pyspin_image` if any; the
attribute is never deleted, so the held buffer is returned again on a
later call. -/
def retrieve (s : CamState) : Outcome (Bool × Option Frame) :=
  match s.pyspinImage with
  | some img => Outcome.ok (true, some img) s
  | none => Outcome.ok (false, none) s

/-- `VideoCapture.read`: `grab` then `retrieve`. -/
def VideoCapture.read (s : CamState) : Outcome (Bool × Option Frame) :=
  match grab s with
  | Outcome.exc m s1 => Outcome.exc m s1
  | Outcome.ok ret s1 =>
    if ret then retrieve s1 else Outcome.ok (false, none) s1

/-- `VideoCaptureEX.grab`: unconditionally raises. -/
def VideoCaptureEX.grab (s : CamState) : Outcome Bool :=
  Outcome.exc "VideoCaptureEX does not support grab module" s

/-- `VideoCaptureEX.retrieve`: unconditionally raises. -/
def VideoCaptureEX.retrieve (s : CamState) : Outcome (Bool × Option Frame) :=
  Outcome.exc "VideoCaptureEX does not support retrieve module" s

/-- Pointwise mean of a list of equally shaped frames
(`np.mean(images, axis=-1)`; the `astype` cast back to the integer pixel
dtype is not modelled, pixels stay exact rationals). -/
def avgFrames (images : List Frame) : Frame :=
  match images with
  | [] => []
  | f :: _ =>
    (List.range f.length).map (fun p =>
      ((images.map (fun g => g.getD p 0)).sum) / (images.length : Rat))

/-- The averaging loop of `VideoCaptureEX.read` (`for i in range(n)`):
grab, early-return `(False, None)` on a failed grab (`ok none`), retrieve,
collect the per-iteration retrieve flags and images. -/
def readLoopEX (s : CamState) (n : Nat) (rets : List Bool)
    (images : List Frame) : Outcome (Option (List Bool × List Frame)) :=
  match n with
  | 0 => Outcome.ok (some (rets, images)) s
  | Nat.succ k =>
    match grab s with
    | Outcome.exc m s1 => Outcome.exc m s1
    | Outcome.ok ret s1 =>
      if ret = false then Outcome.ok none s1
      else
        match retrieve s1 with
        | Outcome.exc m s2 => Outcome.exc m s2
        | Outcome.ok (ret2, img) s2 =>
          readLoopEX s2 k (rets ++ [ret2])
            (images ++ [img.getD []])

/-- `VideoCaptureEX.read`: one grab/retrieve when `average_num == 1`,
otherwise average `average_num` frames.  When `average_num ≠ 1` and the
loop body never runs, the Python code reads the unbound local `rets`
(`NameError`), modelled as a raise. -/
def readEX (s : CamState) : Outcome (Bool × Option Frame) :=
  let average_num := s.average_num
  if average_num = 1 then
    match grab s with
    | Outcome.exc m s1 => Outcome.exc m s1
    | Outcome.ok ret s1 =>
      if ¬ ret then Outcome.ok (false, none) s1 else retrieve s1
  else
    match readLoopEX s average_num.toNat [] [] with
    | Outcome.exc m s1 => Outcome.exc m s1
    | Outcome.ok none s1 => Outcome.ok (false, none) s1
    | Outcome.ok (some (rets, images)) s1 =>
      if rets = [] then Outcome.exc "NameError: rets is not defined" s1
      else if rets.all (fun b => b) then
        Outcome.ok (true, some (avgFrames images)) s1
      else Outcome.ok (false, none) s1

/-- `VideoCaptureEX.average_num` setter: only a Python `int` that is at
least 1 is stored; any other argument leaves the stored count unchanged
and emits a warning. -/
def setAverageNum (s : CamState) (value : PyValue) : CamState :=
  match value with
  | PyValue.vint n =>
    if n ≥ 1 then { s with average_num := n }
    else warn s "average_num must be natural number"
  | _ => warn s "average_num must be natural number"

/-- A demo camera whose next `GetNextImage` delivers an incomplete frame. -/
def demoIncompleteCam : CamState :=
  { demoCam with driver := [DriverEvent.img [7] false] }

/-- A demo camera whose next `GetNextImage` times out. -/
def demoTimeoutCam : CamState :=
  { demoCam with driver := [DriverEvent.timeout] }

/-- The demo camera after one (complete) grab of the frame `[7]`. -/
def demoGrabbedCam : CamState :=
  Outcome.state (grab { demoCam with driver := [DriverEvent.img [7] true] })

/-- A demo camera configured for software triggering with the auto-execute
flag set. -/
def demoTrigCam : CamState :=
  { demoCam with
      nodes := writeNode
        (writeNode demoCam.nodes "TriggerMode" (PyValue.vint 1))
        "TriggerSource" (PyValue.vint 1),
      auto_software_trigger_execute := true,
      driver := [DriverEvent.img [7] true] }

/-- The image payload of a driver event. -/
def eventFrame : DriverEvent → Frame
  | DriverEvent.img f _ => f
  | DriverEvent.timeout => []

/-- The driver event is a completely delivered image. -/
def isCompleteImg : DriverEvent → Bool
  | DriverEvent.img _ complete => complete
  | DriverEvent.timeout => false

/-- The camera state after a successful `GetNextImage` delivered frame `f`
with remaining script `rest`. -/
def grabStep (s : CamState) (f : Frame) (rest : List DriverEvent) : CamState :=
  { grabPre s with driver := rest, pyspinImage := some f }

/-- A demo camera set to average two frames, with two complete frames
scripted. -/
def demoAvgCam : CamState :=
  { demoCam with
      average_num := 2,
      driver := [DriverEvent.img [2, 4] true, DriverEvent.img [4, 8] true] }

/-- Python `value != -1` on the numeric value passed to `VideoCapture.set`. -/
def pyEqNegOne : PyValue → Bool
  | PyValue.vint n => n = -1
  | PyValue.vfloat q => q = -1
  | _ => false

/-- `VideoCapture.set(cv2.CAP_PROP_EXPOSURE, value)`: manual exposure
(`ExposureAuto = Off` then `ExposureTime = value`) unless `value == -1`,
which selects `ExposureAuto = Continuous`. -/
def setPropExposure (s : CamState) (value : PyValue) : Bool × CamState :=
  if pyEqNegOne value then
    set_pyspin_value s "ExposureAuto" (PyValue.vstr "Continuous")
  else
    match set_pyspin_value s "ExposureAuto" (PyValue.vstr "Off") with
    | (ok1, s1) =>
      match set_pyspin_value s1 "ExposureTime" value with
      | (ok2, s2) => (ok1 && ok2, s2)

/-- The nodes snapshotted and restored by
`VideoCaptureEX.readExposureBracketing`. -/
def bracketNodeNames : List String :=
  ["TriggerSelector", "TriggerMode", "TriggerSource",
   "ExposureTime", "ExposureAuto", "GainAuto"]

/-- `values_origin = [self.get_pyspin_value(n) for n in ...]`. -/
def snapshotValues : CamState → List String → List PyValue × CamState
  | s, [] => ([], s)
  | s, name :: rest =>
    match get_pyspin_value s name with
    | (v, s1) =>
      match snapshotValues s1 rest with
      | (vs, s2) => (v :: vs, s2)

/-- The restore loop
`for node_name, value in zip(...): self.set_pyspin_value(node_name, value)`. -/
def restoreValues : CamState → List (String × PyValue) → CamState
  | s, [] => s
  | s, (name, v) :: rest => restoreValues (set_pyspin_value s name v).2 rest

/-- The three ignored warm-up reads (`for _ in range(3): self.read()`),
executed only for the first exposure.  Their boolean results are ignored,
but a raised exception propagates. -/
def dummyReads : CamState → Nat → Outcome Unit
  | s, 0 => Outcome.ok () s
  | s, Nat.succ k =>
    match readEX s with
    | Outcome.exc m s1 => Outcome.exc m s1
    | Outcome.ok _ s1 => dummyReads s1 k

/-- `self.cam.EndAcquisition()`. -/
def endAcquisition (s : CamState) : CamState :=
  { s with streaming := false }

/-- The capture loop of `readExposureBracketing`
(`for i, t in enumerate(exposures)`): set the exposure, discard three
warm-up reads when `i == 0`, read one frame, abort the whole series with
`(False, None)` on a failed read. -/
def bracketCapture : CamState → List Rat → Bool → List Frame →
    Outcome (Bool × List Frame)
  | s, [], _, acc => Outcome.ok (true, acc) s
  | s, t :: rest, isFirst, acc =>
    match setPropExposure s (PyValue.vfloat t) with
    | (_, s1) =>
      match (if isFirst then dummyReads s1 3 else Outcome.ok () s1) with
      | Outcome.exc m s2 => Outcome.exc m s2
      | Outcome.ok _ s2 =>
        match readEX s2 with
        | Outcome.exc m s3 => Outcome.exc m s3
        | Outcome.ok (ret, frame) s3 =>
          if ret = false then Outcome.ok (false, acc) s3
          else bracketCapture s3 rest false (acc ++ [frame.getD []])

/-- The trigger-forcing phase of `readExposureBracketing`:
`TriggerSelector = FrameStart`, `TriggerMode = On`,
`TriggerSource = Software`, `auto_software_trigger_execute = True`. -/
def afterTrigSetup (s : CamState) : CamState :=
  { (set_pyspin_value (set_pyspin_value (set_pyspin_value s
        "TriggerSelector" (PyValue.vstr "FrameStart")).2
        "TriggerMode" (PyValue.vstr "On")).2
        "TriggerSource" (PyValue.vstr "Software")).2 with
      auto_software_trigger_execute := true }

/-- The gain-pinning phase of `readExposureBracketing`:
`gain = self.get_pyspin_value("Gain")`, `GainAuto = Off`, `Gain = gain`. -/
def afterGainSetup (s : CamState) : CamState :=
  (set_pyspin_value
    (set_pyspin_value (get_pyspin_value s "Gain").2
      "GainAuto" (PyValue.vstr "Off")).2
    "Gain" (get_pyspin_value s "Gain").1).2

/-- `VideoCaptureEX.readExposureBracketing`: snapshot the six
trigger/exposure/gain nodes and the auto-trigger flag, force software
triggering with fixed gain, capture one frame per exposure (with warm-up
reads before the first), and restore the snapshot only after a fully
successful series; a failed read returns `(False, None)` immediately,
skipping `EndAcquisition` and the restore loop. -/
def readExposureBracketing (s : CamState) (exposures : List Rat) :
    Outcome (Bool × Option (List Frame)) :=
  match snapshotValues s bracketNodeNames with
  | (values_origin, sA) =>
    match bracketCapture (afterGainSetup (afterTrigSetup sA)) exposures
        true [] with
    | Outcome.exc m sI => Outcome.exc m sI
    | Outcome.ok (ret, imlist) sI =>
      if ret = false then Outcome.ok (false, none) sI
      else
        Outcome.ok (true, some imlist)
          { restoreValues (endAcquisition sI)
              (bracketNodeNames.zip values_origin) with
            auto_software_trigger_execute :=
              sA.auto_software_trigger_execute }

/-- The node with its stored value erased: the per-node data that no
`SetValue` can change (kind, bounds, accessibility). -/
def nodeMeta (nd : Node) : Node :=
  { nd with value := PyValue.vnone }

/-- The name-to-metadata map of the camera: invariant under every
embedded camera operation. -/
def nodesShape (s : CamState) : List (String × Node) :=
  s.nodes.map (fun p => (p.1, nodeMeta p.2))

/-- The state components that every embedded camera call leaves intact:
the node metadata map, the open flag and the averaging count. -/
def CoreEq (a b : CamState) : Prop :=
  nodesShape a = nodesShape b ∧ a.opened = b.opened ∧
  a.average_num = b.average_num

/-- The value `v` is accepted verbatim by `SetValue` on node `nd`: right
Python type for the node's kind and, for numeric kinds, within the
reported `[GetMin, GetMax]` (so the clip is the identity). -/
def valueFits (nd : Node) (v : PyValue) : Prop :=
  match nd.kind, v with
  | NodeKind.integer, PyValue.vint n => nd.zmin ≤ n ∧ n ≤ nd.zmax
  | NodeKind.float, PyValue.vfloat q => nd.qmin ≤ q ∧ q ≤ nd.qmax
  | NodeKind.enumeration, PyValue.vint _ => True
  | NodeKind.boolean, PyValue.vbool _ => True
  | _, _ => False

/-- A node the bracketing snapshot/restore can round-trip: present,
readable and writable, and currently holding a value of its own kind
within its own bounds. -/
def NodeIntact (s : CamState) (name : String) : Prop :=
  ∃ nd, findNode s.nodes name = some nd ∧ nd.writable = true ∧
    nd.readable = true ∧ nd.hasSetValue = true ∧ nd.hasGetValue = true ∧
    valueFits nd nd.value

/-- The currently stored value of a named node (`vnone` when absent). -/
def valueAt (s : CamState) (name : String) : PyValue :=
  match findNode s.nodes name with
  | some nd => nd.value
  | none => PyValue.vnone

/-- A demo camera with five complete scripted frames, enough for one
bracketing run over two exposures. -/
def demoBracketCam : CamState :=
  { demoCam with driver :=
      [DriverEvent.img [1] true, DriverEvent.img [2] true,
       DriverEvent.img [3] true, DriverEvent.img [4] true,
       DriverEvent.img [5] true] }

/-- The same camera, but the fifth delivered frame (the one read for the
second exposure) is incomplete, so its read fails. -/
def demoBracketFailCam : CamState :=
  { demoCam with driver :=
      [DriverEvent.img [1] true, DriverEvent.img [2] true,
       DriverEvent.img [3] true, DriverEvent.img [4] true,
       DriverEvent.img [5] false] }

/-- `Zmin = 0.01`: lower edge of the well-exposed band in `mergeHDR`. -/
noncomputable def hdrZmin : Real := 1 / 100

/-- `Zmax = 0.99`: upper edge of the well-exposed band in `mergeHDR`. -/
noncomputable def hdrZmax : Real := 99 / 100

/-- `epsilon = 1e-32` added to every weight in `mergeHDR`. -/
noncomputable def hdrEpsilon : Real := 1 / 10 ^ 32

/-- The Gaussian weight `np.exp(-4 * ((z - 0.5) / 0.5) ** 2)`. -/
noncomputable def gaussWeight (z : Real) : Real :=
  Real.exp (-4 * ((z - 1 / 2) / (1 / 2)) ^ 2)

/-- `w = np.exp(...) * mask`: the Gaussian weight multiplied by the
in-band indicator `Zmin <= z <= Zmax`. -/
noncomputable def sampleWeight (z : Real) : Real :=
  gaussWeight z * (if hdrZmin ≤ z ∧ z ≤ hdrZmax then 1 else 0)

/-- `np.max` of a list (`0` on the empty list, which numpy rejects). -/
noncomputable def maxList : List Real → Real
  | [] => 0
  | x :: xs => xs.foldl max x

/-- `np.min` of a list (`0` on the empty list, which numpy rejects). -/
noncomputable def minList : List Real → Real
  | [] => 0
  | x :: xs => xs.foldl min x

/-- One pixel of `np.average(z / t, axis=0, weights=w + epsilon)`: the
sum of `(w_i + ε) · z_i / (t_i / t_ref)` divided by the sum of
`(w_i + ε)`. -/
noncomputable def mainMerge (zs ts : List Real) (tref : Real) : Real :=
  (List.zipWith (fun r w => w * r)
      (List.zipWith (fun z t => z / (t / tref)) zs ts)
      (zs.map (fun z => sampleWeight z + hdrEpsilon))).sum /
    (zs.map (fun z => sampleWeight z + hdrEpsilon)).sum

/-- One pixel of `VideoCaptureEX.mergeHDR`: the weighted average
(`mainMerge`), overridden by `Zmin / np.max(t)` when the pixel is below
the band in every sample, and by `Zmax / np.min(t)` when it is above the
band in every sample.  The code assigns the under-exposed override first
and the over-exposed one second, so the over-exposed assignment wins when
both apply (only possible for an empty stack). -/
noncomputable def mergePixel (zs ts : List Real) (tref : Real) : Real :=
  if ∀ z ∈ zs, hdrZmax < z then hdrZmax / minList (ts.map (fun t => t / tref))
  else if ∀ z ∈ zs, z < hdrZmin then
    hdrZmin / maxList (ts.map (fun t => t / tref))
  else mainMerge zs ts tref

/-- `VideoCaptureEX.mergeHDR`, pixel by pixel: pixel `p` of the output is
`mergePixel` applied to the `p`-th pixel of every input frame. -/
noncomputable def mergeHDR (imlist : List (List Real)) (times : List Real)
    (time_ref : Real) : List Real :=
  (List.range (imlist.headD []).length).map
    (fun p => mergePixel (imlist.map (fun im => im.getD p 0)) times time_ref)

/-- Modelled from the spec (for comparison with the code): the per-pixel
formula the specification states,
`radiance = Σ(weight_i · z_i / (t_i / t_ref)) / (Σ weight_i + ε)` —
weights NOT shifted by ε in the numerator, a single ε in the
denominator. -/
noncomputable def claimFormulaPixel (zs ts : List Real) (tref : Real) : Real :=
  (List.zipWith (fun r w => w * r)
      (List.zipWith (fun z t => z / (t / tref)) zs ts)
      (zs.map sampleWeight)).sum /
    ((zs.map sampleWeight).sum + hdrEpsilon)

theorem findNode_writeNode_self (l : List (String × Node)) (name : String)
    (v : PyValue) :
    findNode (writeNode l name v) name = (findNode l name).map
      (fun nd => { nd with value := v }) := by
  induction l with
  | nil => simp [findNode, writeNode]
  | cons hd tl ih =>
    obtain ⟨n, nd⟩ := hd
    by_cases h : n = name
    · simp [findNode, writeNode, h]
    · simp [findNode, writeNode, h, ih]

/-- C2: for a writable Integer or Float node and a type-accepted numeric
value outside the node's reported `[min, max]`, `set_pyspin_value` returns
`true`, commits exactly the clipped value `min(max(v, min), max)` (which
differs from the requested value), and records one diagnostic warning. -/
theorem set_pyspin_value_clips_out_of_range
    (s : CamState) (name : String) (nd : Node) (v : PyValue)
    (hop : isOpened s = true)
    (hfind : findNode s.nodes name = some nd)
    (hsv : nd.hasSetValue = true)
    (hw : nd.writable = true)
    (hfit : fitsNumericKind nd.kind v)
    (hb : boundsOk nd)
    (hout : outOfRange nd v) :
    (set_pyspin_value s name v).1 = true ∧
    findNode (set_pyspin_value s name v).2.nodes name =
      some { nd with value := clipToNode nd v } ∧
    clipToNode nd v ≠ v ∧
    (set_pyspin_value s name v).2.warnings = "value out of range, clipped" :: s.warnings := by
  obtain ⟨k, wr, rd, hsv0, hgv0, zmin, zmax, qmin, qmax, val⟩ := nd
  simp only at hsv hw
  subst hsv hw
  simp only [isOpened] at hop
  cases k <;> cases v <;> simp only [fitsNumericKind] at hfit
  case integer.vint n =>
    simp only [outOfRange] at hout
    simp only [boundsOk] at hb
    have hne : min (max n zmin) zmax ≠ n := by omega
    refine ⟨?_, ?_, ?_, ?_⟩ <;>
      simp [set_pyspin_value, isOpened, hop, hfind, hne, clipToNode,
        commitNode, warn, findNode_writeNode_self]
  case float.vint n =>
    simp only [outOfRange] at hout
    simp only [boundsOk] at hb
    have hne : min (max (n : Rat) qmin) qmax ≠ (n : Rat) := by
      rcases hout with h | h
      · rw [max_eq_right h.le, min_eq_left hb]
        exact fun hc => absurd hc.symm (ne_of_lt h)
      · rw [max_eq_left (le_trans hb h.le), min_eq_right h.le]
        exact ne_of_lt h
    refine ⟨?_, ?_, ?_, ?_⟩ <;>
      simp [set_pyspin_value, isOpened, hop, hfind, hne, clipToNode,
        commitNode, warn, findNode_writeNode_self]
  case float.vfloat q =>
    simp only [outOfRange] at hout
    simp only [boundsOk] at hb
    have hne : min (max q qmin) qmax ≠ q := by
      rcases hout with h | h
      · rw [max_eq_right h.le, min_eq_left hb]
        exact fun hc => absurd hc.symm (ne_of_lt h)
      · rw [max_eq_left (le_trans hb h.le), min_eq_right h.le]
        exact ne_of_lt h
    refine ⟨?_, ?_, ?_, ?_⟩ <;>
      simp [set_pyspin_value, isOpened, hop, hfind, hne, clipToNode,
        commitNode, warn, findNode_writeNode_self]

/-- Witness for C2 at a concrete input: `ExposureTime` set to `1.0`, below
the minimum `20`, is committed as `20` with a warning. -/
theorem set_pyspin_value_clips_witness :
    (set_pyspin_value demoCam "ExposureTime" (PyValue.vfloat 1)).1 = true ∧
    findNode (set_pyspin_value demoCam "ExposureTime" (PyValue.vfloat 1)).2.nodes
        "ExposureTime" =
      some { demoExposureNode with
              value := clipToNode demoExposureNode (PyValue.vfloat 1) } ∧
    clipToNode demoExposureNode (PyValue.vfloat 1) ≠ PyValue.vfloat 1 ∧
    (set_pyspin_value demoCam "ExposureTime" (PyValue.vfloat 1)).2.warnings =
      "value out of range, clipped" :: demoCam.warnings :=
  set_pyspin_value_clips_out_of_range demoCam "ExposureTime" demoExposureNode
    (PyValue.vfloat 1) (by decide) (by decide) (by decide) (by decide)
    trivial (by norm_num [boundsOk, demoExposureNode])
    (by norm_num [outOfRange, demoExposureNode])

theorem beginAcq_driver (s : CamState) : (beginAcq s).driver = s.driver := by
  unfold beginAcq
  split <;> rfl

theorem beginAcq_nodes (s : CamState) : (beginAcq s).nodes = s.nodes := by
  unfold beginAcq
  split <;> rfl

theorem beginAcq_opened (s : CamState) : (beginAcq s).opened = s.opened := by
  unfold beginAcq
  split <;> rfl

theorem beginAcq_warnings (s : CamState) :
    (beginAcq s).warnings = s.warnings := by
  unfold beginAcq
  split <;> rfl

theorem beginAcq_average_num (s : CamState) :
    (beginAcq s).average_num = s.average_num := by
  unfold beginAcq
  split <;> rfl

theorem beginAcq_auto (s : CamState) :
    (beginAcq s).auto_software_trigger_execute =
      s.auto_software_trigger_execute := by
  unfold beginAcq
  split <;> rfl

theorem beginAcq_pyspinImage (s : CamState) :
    (beginAcq s).pyspinImage = s.pyspinImage := by
  unfold beginAcq
  split <;> rfl

theorem beginAcq_triggersExecuted (s : CamState) :
    (beginAcq s).triggersExecuted = s.triggersExecuted := by
  unfold beginAcq
  split <;> rfl

theorem grabPre_driver (s : CamState) : (grabPre s).driver = s.driver := by
  unfold grabPre
  split <;> simp [beginAcq_driver]

theorem grabPre_nodes (s : CamState) : (grabPre s).nodes = s.nodes := by
  unfold grabPre
  split <;> simp [beginAcq_nodes]

theorem grabPre_opened (s : CamState) : (grabPre s).opened = s.opened := by
  unfold grabPre
  split <;> simp [beginAcq_opened]

theorem grabPre_warnings (s : CamState) : (grabPre s).warnings = s.warnings := by
  unfold grabPre
  split <;> simp [beginAcq_warnings]

theorem grabPre_average_num (s : CamState) :
    (grabPre s).average_num = s.average_num := by
  unfold grabPre
  split <;> simp [beginAcq_average_num]

theorem grabPre_auto (s : CamState) :
    (grabPre s).auto_software_trigger_execute =
      s.auto_software_trigger_execute := by
  unfold grabPre
  split <;> simp [beginAcq_auto]

theorem grabPre_pyspinImage (s : CamState) :
    (grabPre s).pyspinImage = s.pyspinImage := by
  unfold grabPre
  split <;> simp [beginAcq_pyspinImage]

theorem triggerSoftwareAvailable_beginAcq (s : CamState) :
    triggerSoftwareAvailable (beginAcq s) = triggerSoftwareAvailable s := by
  unfold triggerSoftwareAvailable
  rw [beginAcq_nodes]

theorem grabPre_triggersExecuted (s : CamState) :
    (grabPre s).triggersExecuted = s.triggersExecuted +
      (if (triggerSoftwareAvailable s && s.auto_software_trigger_execute)
        then 1 else 0) := by
  unfold grabPre
  rw [triggerSoftwareAvailable_beginAcq, beginAcq_auto]
  split <;> simp_all [beginAcq_triggersExecuted]

/-- C4 (amended): on an open camera, a delivered-but-incomplete frame makes
`grab` return `false` (a recoverable failure), but a `GetNextImage`
timeout raises a `SpinnakerException` that `grab` does not catch, so a
timeout surfaces as an exception rather than a `false` return. -/
theorem grab_incomplete_false_timeout_raises
    (s t : CamState) (f : Frame) (rest restT : List DriverEvent)
    (hops : isOpened s = true) (hopt : isOpened t = true)
    (hs : s.driver = DriverEvent.img f false :: rest)
    (ht : t.driver = DriverEvent.timeout :: restT) :
    grab s = Outcome.ok false { grabPre s with driver := rest, pyspinImage := some f } ∧
    grab t = Outcome.exc "SpinnakerException: GetNextImage timed out"
      { grabPre t with driver := restT } := by
  constructor
  · have hd : (grabPre s).driver = DriverEvent.img f false :: rest := by
      rw [grabPre_driver, hs]
    simp [grab, hops, hd]
  · have hd : (grabPre t).driver = DriverEvent.timeout :: restT := by
      rw [grabPre_driver, ht]
    simp [grab, hopt, hd]

/-- Witness for C4 at concrete inputs. -/
theorem grab_incomplete_false_timeout_raises_witness :
    grab demoIncompleteCam = Outcome.ok false
      { grabPre demoIncompleteCam with driver := [], pyspinImage := some [7] } ∧
    grab demoTimeoutCam = Outcome.exc "SpinnakerException: GetNextImage timed out"
      { grabPre demoTimeoutCam with driver := [] } :=
  grab_incomplete_false_timeout_raises demoIncompleteCam demoTimeoutCam
    [7] [] [] (by decide) (by decide) (by decide) (by decide)

/-- Counterexample for C4 as stated: on a timeout, `grab` raises (the call
is an exception, not a `false` return). -/
theorem grab_timeout_is_exception_not_false :
    Outcome.isExc (grab demoTimeoutCam) = true ∧
    Outcome.retOf (grab demoTimeoutCam) ≠ some false := by
  decide

/-- C5 (amended): `retrieve` fails exactly when no grabbed buffer is held;
it neither consumes nor clears the held buffer, so after one grab a second
(and any later) retrieve still succeeds and returns the same image. -/
theorem retrieve_holds_buffer
    (s s2 : CamState) (f : Frame)
    (himg : s.pyspinImage = some f) (h2 : s2.pyspinImage = none) :
    retrieve s = Outcome.ok (true, some f) s ∧
    retrieve (Outcome.state (retrieve s)) = Outcome.ok (true, some f) s ∧
    retrieve s2 = Outcome.ok (false, none) s2 := by
  refine ⟨?_, ?_, ?_⟩ <;> simp [retrieve, himg, h2, Outcome.state]

/-- Witness for C5's amended theorem at a concrete input. -/
theorem retrieve_holds_buffer_witness :
    retrieve demoGrabbedCam = Outcome.ok (true, some [7]) demoGrabbedCam ∧
    retrieve (Outcome.state (retrieve demoGrabbedCam)) =
      Outcome.ok (true, some [7]) demoGrabbedCam ∧
    retrieve demoCam = Outcome.ok (false, none) demoCam :=
  retrieve_holds_buffer demoGrabbedCam demoCam [7] (by decide) (by decide)

/-- Counterexample for C5 as stated: after one successful grab and one
retrieve, a second retrieve without an intervening grab still returns
`(True, image)`, not a failure. -/
theorem second_retrieve_succeeds :
    Outcome.retOf (grab { demoCam with driver := [DriverEvent.img [7] true] }) =
      some true ∧
    Outcome.retOf (retrieve demoGrabbedCam) = some (true, some [7]) ∧
    Outcome.retOf (retrieve (Outcome.state (retrieve demoGrabbedCam))) =
      some (true, some [7]) := by
  decide

/-- C7: on an open camera, `grab` executes the software trigger exactly
when the `TriggerMode` node is `On`, the `TriggerSource` node is
`Software` (which is when `PySpin.IsAvailable(TriggerSoftware)` holds, per
the source comment) and `auto_software_trigger_execute` is set; in every
other configuration the trigger count is unchanged. -/
theorem grab_fires_trigger_iff
    (s : CamState) (hop : isOpened s = true) :
    (Outcome.state (grab s)).triggersExecuted =
      s.triggersExecuted +
        (if ((findNode s.nodes "TriggerMode").map Node.value =
              some (PyValue.vint triggerModeOnCode) ∧
            (findNode s.nodes "TriggerSource").map Node.value =
              some (PyValue.vint triggerSourceSoftwareCode) ∧
            s.auto_software_trigger_execute = true)
          then 1 else 0) := by
  have hstate : (Outcome.state (grab s)).triggersExecuted =
      (grabPre s).triggersExecuted := by
    rcases hdrv : (grabPre s).driver with _ | ⟨ev, rest⟩
    · simp [grab, hop, hdrv, Outcome.state]
    · cases ev <;> simp [grab, hop, hdrv, Outcome.state]
  rw [hstate, grabPre_triggersExecuted]
  unfold triggerSoftwareAvailable
  by_cases hmode : (findNode s.nodes "TriggerMode").map Node.value =
      some (PyValue.vint triggerModeOnCode) <;>
    by_cases hsrc : (findNode s.nodes "TriggerSource").map Node.value =
        some (PyValue.vint triggerSourceSoftwareCode) <;>
    by_cases hauto : s.auto_software_trigger_execute = true <;>
    simp [hmode, hsrc, hauto]

/-- Witness for C7 at a concrete input (trigger fires exactly once). -/
theorem grab_fires_trigger_iff_witness :
    (Outcome.state (grab demoTrigCam)).triggersExecuted =
      demoTrigCam.triggersExecuted +
        (if ((findNode demoTrigCam.nodes "TriggerMode").map Node.value =
              some (PyValue.vint triggerModeOnCode) ∧
            (findNode demoTrigCam.nodes "TriggerSource").map Node.value =
              some (PyValue.vint triggerSourceSoftwareCode) ∧
            demoTrigCam.auto_software_trigger_execute = true)
          then 1 else 0) :=
  grab_fires_trigger_iff demoTrigCam (by decide)

/-- C9: on the extended class, `grab` and `retrieve` always raise,
whatever the device state. -/
theorem videocaptureex_grab_retrieve_always_raise (s : CamState) :
    VideoCaptureEX.grab s =
      Outcome.exc "VideoCaptureEX does not support grab module" s ∧
    VideoCaptureEX.retrieve s =
      Outcome.exc "VideoCaptureEX does not support retrieve module" s :=
  ⟨rfl, rfl⟩

theorem isCompleteImg_shape (ev : DriverEvent) (h : isCompleteImg ev = true) :
    ev = DriverEvent.img (eventFrame ev) true := by
  cases ev with
  | img f complete => cases complete <;> simp_all [isCompleteImg, eventFrame]
  | timeout => simp [isCompleteImg] at h

theorem grabStep_driver (s : CamState) (f : Frame) (rest : List DriverEvent) :
    (grabStep s f rest).driver = rest := rfl

theorem grabStep_pyspinImage (s : CamState) (f : Frame)
    (rest : List DriverEvent) : (grabStep s f rest).pyspinImage = some f := rfl

theorem grabStep_nodes (s : CamState) (f : Frame) (rest : List DriverEvent) :
    (grabStep s f rest).nodes = s.nodes := by
  have : (grabStep s f rest).nodes = (grabPre s).nodes := rfl
  rw [this, grabPre_nodes]

theorem grabStep_opened (s : CamState) (f : Frame) (rest : List DriverEvent) :
    (grabStep s f rest).opened = s.opened := by
  have : (grabStep s f rest).opened = (grabPre s).opened := rfl
  rw [this, grabPre_opened]

theorem grabStep_average_num (s : CamState) (f : Frame)
    (rest : List DriverEvent) :
    (grabStep s f rest).average_num = s.average_num := by
  have : (grabStep s f rest).average_num = (grabPre s).average_num := rfl
  rw [this, grabPre_average_num]

theorem grabStep_auto (s : CamState) (f : Frame) (rest : List DriverEvent) :
    (grabStep s f rest).auto_software_trigger_execute =
      s.auto_software_trigger_execute := by
  have : (grabStep s f rest).auto_software_trigger_execute =
      (grabPre s).auto_software_trigger_execute := rfl
  rw [this, grabPre_auto]

theorem grabStep_warnings (s : CamState) (f : Frame)
    (rest : List DriverEvent) :
    (grabStep s f rest).warnings = s.warnings := by
  have : (grabStep s f rest).warnings = (grabPre s).warnings := rfl
  rw [this, grabPre_warnings]

theorem grab_complete_step (s : CamState) (f : Frame) (rest : List DriverEvent)
    (hop : isOpened s = true)
    (hdrv : s.driver = DriverEvent.img f true :: rest) :
    grab s = Outcome.ok true (grabStep s f rest) := by
  have hd : (grabPre s).driver = DriverEvent.img f true :: rest := by
    rw [grabPre_driver, hdrv]
  simp [grab, hop, hd, grabStep]

theorem retrieve_grabStep (s : CamState) (f : Frame)
    (rest : List DriverEvent) :
    retrieve (grabStep s f rest) =
      Outcome.ok (true, some f) (grabStep s f rest) := by
  simp [retrieve, grabStep_pyspinImage]

theorem avgFrames_single (f : Frame) : avgFrames [f] = f := by
  unfold avgFrames
  apply List.ext_getElem
  · simp
  · intro i h1 h2
    simp [List.getD_eq_getElem, h2]

theorem readLoop_complete (k : Nat) :
    ∀ (s : CamState) (rets : List Bool) (images : List Frame),
    isOpened s = true →
    (s.driver.take k).all isCompleteImg = true →
    k ≤ s.driver.length →
    ∃ s2, readLoopEX s k rets images =
        Outcome.ok (some (rets ++ List.replicate k true,
          images ++ (s.driver.take k).map eventFrame)) s2 ∧
      s2.driver = s.driver.drop k ∧
      s2.nodes = s.nodes ∧
      s2.opened = s.opened ∧
      s2.average_num = s.average_num ∧
      s2.auto_software_trigger_execute = s.auto_software_trigger_execute ∧
      s2.warnings = s.warnings := by
  induction k with
  | zero =>
    intro s rets images hop hscript hlen
    exact ⟨s, by simp [readLoopEX], by simp, rfl, rfl, rfl, rfl, rfl⟩
  | succ k ih =>
    intro s rets images hop hscript hlen
    rcases hd : s.driver with _ | ⟨ev, rest⟩
    · rw [hd] at hlen
      simp at hlen
    · rw [hd] at hscript hlen
      rcases ev with ⟨f, c⟩ | _
      · rcases c with _ | _
        · simp [List.take_succ_cons, isCompleteImg] at hscript
        · simp only [List.take_succ_cons, List.all_cons, Bool.and_eq_true] at hscript
          obtain ⟨_, hrest⟩ := hscript
          have hgrab : grab s = Outcome.ok true (grabStep s f rest) :=
            grab_complete_step s f rest hop hd
          have hlen2 : k ≤ rest.length := by
            simpa using Nat.le_of_succ_le_succ hlen
          obtain ⟨s2, heq, hdr, hnd, hopn, havg, haut, hwarn⟩ :=
            ih (grabStep s f rest) (rets ++ [true]) (images ++ [f])
              (by unfold isOpened at hop ⊢
                  rw [grabStep_opened]
                  exact hop)
              (by rw [grabStep_driver]; exact hrest)
              (by rw [grabStep_driver]; exact hlen2)
          refine ⟨s2, ?_, ?_, ?_, ?_, ?_, ?_, ?_⟩
          · simp only [readLoopEX, hgrab]
            rw [if_neg (by simp)]
            rw [retrieve_grabStep]
            simp only [Option.getD_some]
            rw [heq]
            rw [grabStep_driver]
            simp [List.replicate_succ, List.append_assoc, List.take_succ_cons,
              eventFrame]
          · simp [hdr, grabStep_driver, hd]
          · rw [hnd, grabStep_nodes]
          · rw [hopn, grabStep_opened]
          · rw [havg, grabStep_average_num]
          · rw [haut, grabStep_auto]
          · rw [hwarn, grabStep_warnings]
      · simp [List.take_succ_cons, isCompleteImg] at hscript

/-- `VideoCaptureEX.read` on a script of completely delivered frames:
succeeds, consumes exactly `average_num` driver events, and returns the
pointwise average of exactly those frames. -/
theorem readEX_complete (s : CamState)
    (hop : isOpened s = true)
    (hn : 1 ≤ s.average_num)
    (hscript : (s.driver.take s.average_num.toNat).all isCompleteImg = true)
    (hlen : s.average_num.toNat ≤ s.driver.length) :
    ∃ s2, readEX s =
        Outcome.ok (true, some (avgFrames
          ((s.driver.take s.average_num.toNat).map eventFrame))) s2 ∧
      s2.driver = s.driver.drop s.average_num.toNat ∧
      s2.nodes = s.nodes ∧
      s2.opened = s.opened ∧
      s2.average_num = s.average_num ∧
      s2.auto_software_trigger_execute = s.auto_software_trigger_execute ∧
      s2.warnings = s.warnings := by
  by_cases h1 : s.average_num = 1
  · have ht : s.average_num.toNat = 1 := by rw [h1]; rfl
    rw [ht] at hscript hlen ⊢
    rcases hd : s.driver with _ | ⟨ev, rest⟩
    · rw [hd] at hlen
      simp at hlen
    · rw [hd] at hscript
      rcases ev with ⟨f, c⟩ | _
      · rcases c with _ | _
        · simp [List.take_succ_cons, isCompleteImg] at hscript
        · have hgrab : grab s = Outcome.ok true (grabStep s f rest) :=
            grab_complete_step s f rest hop hd
          refine ⟨grabStep s f rest, ?_, ?_, ?_, ?_, ?_, ?_, ?_⟩
          · simp only [readEX, h1, if_pos, hgrab]
            rw [if_neg (by simp)]
            rw [retrieve_grabStep]
            simp [List.take_succ_cons, eventFrame, avgFrames_single]
          · simp [grabStep_driver, hd]
          · rw [grabStep_nodes]
          · rw [grabStep_opened]
          · rw [grabStep_average_num]
          · rw [grabStep_auto]
          · rw [grabStep_warnings]
      · simp [List.take_succ_cons, isCompleteImg] at hscript
  · have hk : 1 ≤ s.average_num.toNat := by omega
    obtain ⟨s2, heq, hdr, hnd, hopn, havg, haut, hwarn⟩ :=
      readLoop_complete s.average_num.toNat s [] [] hop hscript hlen
    refine ⟨s2, ?_, hdr, hnd, hopn, havg, haut, hwarn⟩
    simp only [readEX, h1, if_neg]
    rw [heq]
    have hne : List.replicate s.average_num.toNat true ≠ ([] : List Bool) := by
      intro hcon
      have hlencon := congrArg List.length hcon
      simp at hlencon
      omega
    simp [hne, List.all_eq_true]

/-- C10: the averaging count starts at 1; assigning a non-int or any value
below 1 leaves the stored count unchanged and only emits a warning, while
assigning an int that is at least 1 stores it without warning; and a
successful `read` grabs exactly `average_num` frames and returns their
pointwise average. -/
theorem average_num_invariant
    (sb sg s : CamState) (v : PyValue) (m : Int)
    (hbad : ∀ n : Int, v = PyValue.vint n → n < 1)
    (hm : 1 ≤ m)
    (hop : isOpened s = true)
    (hn : 1 ≤ s.average_num)
    (hscript : (s.driver.take s.average_num.toNat).all isCompleteImg = true)
    (hlen : s.average_num.toNat ≤ s.driver.length) :
    ({ } : CamState).average_num = 1 ∧
    ((setAverageNum sb v).average_num = sb.average_num ∧
      (setAverageNum sb v).warnings =
        "average_num must be natural number" :: sb.warnings) ∧
    ((setAverageNum sg (PyValue.vint m)).average_num = m ∧
      (setAverageNum sg (PyValue.vint m)).warnings = sg.warnings) ∧
    ∃ s2, readEX s = Outcome.ok (true, some (avgFrames
        ((s.driver.take s.average_num.toNat).map eventFrame))) s2 ∧
      s2.driver = s.driver.drop s.average_num.toNat := by
  refine ⟨rfl, ?_, ?_, ?_⟩
  · cases v with
    | vint n =>
      have hlt : n < 1 := hbad n rfl
      constructor <;> simp [setAverageNum, warn, if_neg (by omega : ¬ n ≥ 1)]
    | vfloat q => exact ⟨rfl, rfl⟩
    | vbool b => exact ⟨rfl, rfl⟩
    | vstr t => exact ⟨rfl, rfl⟩
    | vnone => exact ⟨rfl, rfl⟩
  · constructor <;> simp [setAverageNum, if_pos (by omega : m ≥ 1)]
  · obtain ⟨s2, heq, hdr, _⟩ := readEX_complete s hop hn hscript hlen
    exact ⟨s2, heq, hdr⟩

/-- Witness for C10 at concrete inputs. -/
theorem average_num_invariant_witness :
    ({ } : CamState).average_num = 1 ∧
    ((setAverageNum demoCam (PyValue.vint 0)).average_num =
        demoCam.average_num ∧
      (setAverageNum demoCam (PyValue.vint 0)).warnings =
        "average_num must be natural number" :: demoCam.warnings) ∧
    ((setAverageNum demoCam (PyValue.vint 5)).average_num = 5 ∧
      (setAverageNum demoCam (PyValue.vint 5)).warnings = demoCam.warnings) ∧
    ∃ s2, readEX demoAvgCam = Outcome.ok (true, some (avgFrames
        ((demoAvgCam.driver.take demoAvgCam.average_num.toNat).map eventFrame)))
        s2 ∧
      s2.driver = demoAvgCam.driver.drop demoAvgCam.average_num.toNat :=
  average_num_invariant demoCam demoCam demoAvgCam (PyValue.vint 0) 5
    (by intro n h; injection h with h2; omega)
    (by decide) (by decide) (by decide) (by decide) (by decide)

theorem writeNode_shape (l : List (String × Node)) (name : String)
    (v : PyValue) :
    (writeNode l name v).map (fun p => (p.1, nodeMeta p.2)) =
      l.map (fun p => (p.1, nodeMeta p.2)) := by
  induction l with
  | nil => rfl
  | cons hd tl ih =>
    obtain ⟨n, nd⟩ := hd
    by_cases h : n = name
    · simp [writeNode, h, ih]
      rfl
    · simp [writeNode, h, ih]

theorem set_pyspin_fields (s : CamState) (name : String) (v : PyValue) :
    nodesShape (set_pyspin_value s name v).2 = nodesShape s ∧
    (set_pyspin_value s name v).2.opened = s.opened ∧
    (set_pyspin_value s name v).2.driver = s.driver ∧
    (set_pyspin_value s name v).2.average_num = s.average_num ∧
    (set_pyspin_value s name v).2.auto_software_trigger_execute =
      s.auto_software_trigger_execute ∧
    (set_pyspin_value s name v).2.streaming = s.streaming := by
  unfold set_pyspin_value
  dsimp only
  repeat' split
  all_goals simp [nodesShape, commitNode, warn, writeNode_shape]

theorem get_pyspin_fields (s : CamState) (name : String) :
    (get_pyspin_value s name).2.nodes = s.nodes ∧
    (get_pyspin_value s name).2.opened = s.opened ∧
    (get_pyspin_value s name).2.driver = s.driver ∧
    (get_pyspin_value s name).2.average_num = s.average_num ∧
    (get_pyspin_value s name).2.auto_software_trigger_execute =
      s.auto_software_trigger_execute ∧
    (get_pyspin_value s name).2.streaming = s.streaming := by
  unfold get_pyspin_value
  repeat' split
  all_goals simp [warn]

theorem coreEq_refl (a : CamState) : CoreEq a a :=
  ⟨rfl, rfl, rfl⟩

theorem coreEq_trans {a b c : CamState} (h1 : CoreEq a b) (h2 : CoreEq b c) :
    CoreEq a c :=
  ⟨h1.1.trans h2.1, h1.2.1.trans h2.2.1, h1.2.2.trans h2.2.2⟩

theorem coreEq_of_nodes {a b : CamState} (hn : a.nodes = b.nodes)
    (ho : a.opened = b.opened) (ha : a.average_num = b.average_num) :
    CoreEq a b :=
  ⟨by unfold nodesShape; rw [hn], ho, ha⟩

theorem set_pyspin_coreEq (s : CamState) (name : String) (v : PyValue) :
    CoreEq (set_pyspin_value s name v).2 s :=
  ⟨(set_pyspin_fields s name v).1, (set_pyspin_fields s name v).2.1,
    (set_pyspin_fields s name v).2.2.2.1⟩

theorem get_pyspin_coreEq (s : CamState) (name : String) :
    CoreEq (get_pyspin_value s name).2 s :=
  coreEq_of_nodes (get_pyspin_fields s name).1 (get_pyspin_fields s name).2.1
    (get_pyspin_fields s name).2.2.2.1

theorem grab_state_fields (s : CamState) :
    (Outcome.state (grab s)).nodes = s.nodes ∧
    (Outcome.state (grab s)).opened = s.opened ∧
    (Outcome.state (grab s)).average_num = s.average_num ∧
    (Outcome.state (grab s)).auto_software_trigger_execute =
      s.auto_software_trigger_execute := by
  unfold grab
  repeat' split
  all_goals simp [Outcome.state, grabPre_nodes, grabPre_opened,
    grabPre_average_num, grabPre_auto]

theorem grab_coreEq (s : CamState) : CoreEq (Outcome.state (grab s)) s :=
  coreEq_of_nodes (grab_state_fields s).1 (grab_state_fields s).2.1
    (grab_state_fields s).2.2.1

/-- `retrieve` never mutates the state and returns the held buffer. -/
theorem retrieve_eq (s : CamState) :
    retrieve s = Outcome.ok (s.pyspinImage.isSome, s.pyspinImage) s := by
  unfold retrieve
  rcases h : s.pyspinImage with _ | f <;> simp [h]

theorem readLoopEX_coreEq (k : Nat) :
    ∀ (s : CamState) (rets : List Bool) (images : List Frame),
    CoreEq (Outcome.state (readLoopEX s k rets images)) s := by
  induction k with
  | zero => intro s rets images; exact coreEq_refl s
  | succ k ih =>
    intro s rets images
    rcases hg : grab s with ⟨ret, s1⟩ | ⟨m, s1⟩
    · have h1 : CoreEq s1 s := by
        have := grab_coreEq s
        rw [hg] at this
        exact this
      rcases ret with _ | _
      · simp only [readLoopEX, hg]
        rw [if_pos trivial]
        exact h1
      · simp only [readLoopEX, hg]
        rw [if_neg (by simp), retrieve_eq s1]
        exact coreEq_trans (ih s1 _ _) h1
    · have h1 : CoreEq s1 s := by
        have := grab_coreEq s
        rw [hg] at this
        exact this
      simp only [readLoopEX, hg]
      exact h1

theorem readEX_coreEq (s : CamState) :
    CoreEq (Outcome.state (readEX s)) s := by
  by_cases h1 : s.average_num = 1
  · rcases hg : grab s with ⟨ret, s1⟩ | ⟨m, s1⟩
    · have hc : CoreEq s1 s := by
        have := grab_coreEq s
        rw [hg] at this
        exact this
      rcases ret with _ | _
      · simp only [readEX, h1, if_pos, hg]
        rw [if_pos (by simp)]
        exact hc
      · simp only [readEX, h1, if_pos, hg]
        rw [if_neg (by simp), retrieve_eq s1]
        exact hc
    · have hc : CoreEq s1 s := by
        have := grab_coreEq s
        rw [hg] at this
        exact this
      simp only [readEX, h1, if_pos, hg]
      exact hc
  · rcases hl : readLoopEX s s.average_num.toNat [] [] with ⟨a, s1⟩ | ⟨m, s1⟩
    · have hc : CoreEq s1 s := by
        have := readLoopEX_coreEq s.average_num.toNat s [] []
        rw [hl] at this
        exact this
      rcases a with _ | ⟨rets, images⟩
      · simp only [readEX, if_neg h1, hl]
        exact hc
      · simp only [readEX, if_neg h1, hl]
        by_cases he : rets = []
        · rw [if_pos he]
          exact hc
        · rw [if_neg he]
          split <;> exact hc
    · have hc : CoreEq s1 s := by
        have := readLoopEX_coreEq s.average_num.toNat s [] []
        rw [hl] at this
        exact this
      simp only [readEX, if_neg h1, hl]
      exact hc

theorem dummyReads_coreEq (n : Nat) :
    ∀ s : CamState, CoreEq (Outcome.state (dummyReads s n)) s := by
  induction n with
  | zero => intro s; exact coreEq_refl s
  | succ k ih =>
    intro s
    unfold dummyReads
    rcases hr : readEX s with ⟨a, s1⟩ | ⟨m, s1⟩
    · have hc : CoreEq s1 s := by
        have := readEX_coreEq s
        rw [hr] at this
        exact this
      exact coreEq_trans (ih s1) hc
    · have hc : CoreEq s1 s := by
        have := readEX_coreEq s
        rw [hr] at this
        exact this
      exact hc

theorem setPropExposure_coreEq (s : CamState) (v : PyValue) :
    CoreEq (setPropExposure s v).2 s := by
  unfold setPropExposure
  split
  · exact set_pyspin_coreEq s "ExposureAuto" (PyValue.vstr "Continuous")
  · exact coreEq_trans
      (set_pyspin_coreEq (set_pyspin_value s "ExposureAuto"
        (PyValue.vstr "Off")).2 "ExposureTime" v)
      (set_pyspin_coreEq s "ExposureAuto" (PyValue.vstr "Off"))

theorem bracketCapture_coreEq (ts : List Rat) :
    ∀ (s : CamState) (first : Bool) (acc : List Frame),
    CoreEq (Outcome.state (bracketCapture s ts first acc)) s := by
  induction ts with
  | nil => intro s first acc; exact coreEq_refl s
  | cons t rest ih =>
    intro s first acc
    unfold bracketCapture
    have hset : CoreEq (setPropExposure s (PyValue.vfloat t)).2 s :=
      setPropExposure_coreEq s (PyValue.vfloat t)
    rcases hdum : (if first then
        dummyReads (setPropExposure s (PyValue.vfloat t)).2 3
      else Outcome.ok () (setPropExposure s (PyValue.vfloat t)).2) with
      ⟨a, s2⟩ | ⟨m, s2⟩
    · have hc2 : CoreEq s2 s := by
        rcases first with _ | _
        · simp only [Bool.false_eq_true, if_neg] at hdum
          cases hdum
          exact hset
        · simp only [if_pos] at hdum
          have := dummyReads_coreEq 3 (setPropExposure s (PyValue.vfloat t)).2
          rw [hdum] at this
          exact coreEq_trans this hset
      rcases hr : readEX s2 with ⟨⟨ret, frame⟩, s3⟩ | ⟨m, s3⟩
      · have hc3 : CoreEq s3 s2 := by
          have := readEX_coreEq s2
          rw [hr] at this
          exact this
        simp only [hdum, hr]
        by_cases hret : ret = false
        · simp only [hret, if_pos rfl]
          exact coreEq_trans hc3 hc2
        · rw [if_neg hret]
          exact coreEq_trans (coreEq_trans (ih s3 false _) hc3) hc2
      · simp only [hdum, hr]
        have hc3 : CoreEq s3 s2 := by
          have := readEX_coreEq s2
          rw [hr] at this
          exact this
        exact coreEq_trans hc3 hc2
    · simp only [hdum]
      have hc2 : CoreEq s2 s := by
        rcases first with _ | _
        · simp only [Bool.false_eq_true, if_neg] at hdum
          cases hdum
        · simp only [if_pos] at hdum
          have := dummyReads_coreEq 3 (setPropExposure s (PyValue.vfloat t)).2
          rw [hdum] at this
          exact coreEq_trans this hset
      exact hc2

theorem get_pyspin_intact (s : CamState) (name : String) (nd : Node)
    (hop : s.opened = true)
    (hfind : findNode s.nodes name = some nd)
    (hrd : nd.readable = true)
    (hgv : nd.hasGetValue = true) :
    get_pyspin_value s name = (nd.value, s) := by
  simp [get_pyspin_value, isOpened, hop, hfind, hrd, hgv]

theorem set_pyspin_exact (s : CamState) (name : String) (nd : Node)
    (v : PyValue)
    (hop : s.opened = true)
    (hfind : findNode s.nodes name = some nd)
    (hsv : nd.hasSetValue = true)
    (hw : nd.writable = true)
    (hfit : valueFits nd v) :
    set_pyspin_value s name v = (true, commitNode s name v) := by
  obtain ⟨k, wr, rd, sv, gv, zmin, zmax, qmin, qmax, val⟩ := nd
  simp only at hsv hw
  subst hsv hw
  cases k <;> cases v <;> simp only [valueFits] at hfit
  case integer.vint n =>
    have hc : min (max n zmin) zmax = n := by
      rw [max_eq_left hfit.1, min_eq_left hfit.2]
    simp [set_pyspin_value, isOpened, hop, hfind, hc]
  case float.vfloat q =>
    have hc : min (max q qmin) qmax = q := by
      rw [max_eq_left hfit.1, min_eq_left hfit.2]
    simp [set_pyspin_value, isOpened, hop, hfind, hc]
  case boolean.vbool b =>
    simp [set_pyspin_value, isOpened, hop, hfind]
  case enumeration.vint n =>
    simp [set_pyspin_value, isOpened, hop, hfind]

theorem findNode_writeNode_other (l : List (String × Node)) (name other : String)
    (v : PyValue) (hne : other ≠ name) :
    findNode (writeNode l name v) other = findNode l other := by
  induction l with
  | nil => rfl
  | cons hd tl ih =>
    obtain ⟨n, nd⟩ := hd
    by_cases h : n = name
    · subst h
      have hno : ¬ n = other := fun hc => hne hc.symm
      simp [writeNode, findNode, hno, ih]
    · by_cases h2 : n = other
      · subst h2
        simp [writeNode, findNode, h, ih]
      · simp [writeNode, findNode, h, h2, ih]

theorem set_pyspin_preserves_other (s : CamState) (name other : String)
    (v : PyValue) (hne : other ≠ name) :
    findNode (set_pyspin_value s name v).2.nodes other =
      findNode s.nodes other := by
  unfold set_pyspin_value
  dsimp only
  repeat' split
  all_goals
    simp [commitNode, warn, findNode_writeNode_other _ _ _ _ hne]

theorem restoreValues_preserves_notin (l : List (String × PyValue)) :
    ∀ (s : CamState) (other : String), other ∉ l.map Prod.fst →
    findNode (restoreValues s l).nodes other = findNode s.nodes other := by
  induction l with
  | nil => intro s other _; rfl
  | cons hd tl ih =>
    intro s other hmem
    obtain ⟨name, v⟩ := hd
    simp only [List.map_cons, List.mem_cons, not_or] at hmem
    rw [restoreValues]
    rw [ih _ other hmem.2]
    exact set_pyspin_preserves_other s name other v hmem.1

theorem restoreValues_opened (l : List (String × PyValue)) :
    ∀ s : CamState, (restoreValues s l).opened = s.opened := by
  induction l with
  | nil => intro s; rfl
  | cons hd tl ih =>
    intro s
    obtain ⟨name, v⟩ := hd
    rw [restoreValues, ih, (set_pyspin_fields s name v).2.1]

/-- The restore loop reapplies every snapshotted value: with distinct
names, a writable node for each key and values that the node accepts
verbatim, each restored node ends at exactly its snapshot value. -/
theorem restore_restores (l : List (String × PyValue)) :
    ∀ s : CamState, s.opened = true →
    (∀ p ∈ l, ∃ nd, findNode s.nodes p.1 = some nd ∧ nd.writable = true ∧
      nd.hasSetValue = true ∧ valueFits nd p.2) →
    (l.map Prod.fst).Nodup →
    ∀ p ∈ l, (findNode (restoreValues s l).nodes p.1).map Node.value =
      some p.2 := by
  induction l with
  | nil => simp
  | cons hd tl ih =>
    intro s hop hint hnodup p hp
    obtain ⟨name, v⟩ := hd
    obtain ⟨nd, hfind, hw, hsv, hfit⟩ :=
      hint (name, v) (List.mem_cons_self _ _)
    have hset : set_pyspin_value s name v = (true, commitNode s name v) :=
      set_pyspin_exact s name nd v hop hfind hsv hw hfit
    have hstep : restoreValues s ((name, v) :: tl) =
        restoreValues (commitNode s name v) tl := by
      rw [restoreValues, hset]
    simp only [List.map_cons, List.nodup_cons] at hnodup
    rcases List.mem_cons.mp hp with heq | hmem
    · subst heq
      rw [hstep]
      rw [restoreValues_preserves_notin tl (commitNode s name v) name hnodup.1]
      simp only [commitNode]
      rw [findNode_writeNode_self, hfind]
      rfl
    · rw [hstep]
      refine ih (commitNode s name v) hop ?_ hnodup.2 p hmem
      intro q hq
      obtain ⟨ndq, hfq, hwq, hsq, hfitq⟩ := hint q (List.mem_cons_of_mem _ hq)
      have hqne : q.1 ≠ name := by
        intro hc
        exact hnodup.1 (hc ▸ List.mem_map_of_mem Prod.fst hq)
      refine ⟨ndq, ?_, hwq, hsq, hfitq⟩
      simp only [commitNode]
      rw [findNode_writeNode_other _ _ _ _ hqne]
      exact hfq

/-- On intact nodes, the snapshot phase reads back exactly the stored
values and leaves the state untouched. -/
theorem snapshot_intact (l : List String) :
    ∀ s : CamState, s.opened = true →
    (∀ n ∈ l, ∃ nd, findNode s.nodes n = some nd ∧ nd.readable = true ∧
      nd.hasGetValue = true) →
    snapshotValues s l = (l.map (valueAt s), s) := by
  induction l with
  | nil => intro s _ _; rfl
  | cons name tl ih =>
    intro s hop hint
    obtain ⟨nd, hfind, hrd, hgv⟩ := hint name (List.mem_cons_self _ _)
    have hget : get_pyspin_value s name = (nd.value, s) :=
      get_pyspin_intact s name nd hop hfind hrd hgv
    have htl : snapshotValues s tl = (tl.map (valueAt s), s) :=
      ih s hop (fun n hn => hint n (List.mem_cons_of_mem _ hn))
    rw [snapshotValues, hget]
    dsimp only
    rw [htl]
    simp [valueAt, hfind]

theorem findNode_of_shape (l1 : List (String × Node)) :
    ∀ (l2 : List (String × Node)) (name : String) (nd : Node),
    l1.map (fun p => (p.1, nodeMeta p.2)) =
      l2.map (fun p => (p.1, nodeMeta p.2)) →
    findNode l2 name = some nd →
    ∃ nd2, findNode l1 name = some nd2 ∧ nodeMeta nd2 = nodeMeta nd := by
  induction l1 with
  | nil =>
    intro l2 name nd h hfind
    cases l2 with
    | nil => simp [findNode] at hfind
    | cons b t2 => simp at h
  | cons a t1 ih =>
    intro l2 name nd h hfind
    cases l2 with
    | nil => simp at h
    | cons b t2 =>
      obtain ⟨n1, nd1⟩ := a
      obtain ⟨n2, nd2'⟩ := b
      simp only [List.map_cons, List.cons.injEq, Prod.mk.injEq] at h
      obtain ⟨⟨hname, hmeta⟩, htail⟩ := h
      rw [findNode] at hfind
      by_cases hn : n2 = name
      · rw [if_pos hn] at hfind
        injection hfind with hnd
        refine ⟨nd1, ?_, ?_⟩
        · rw [findNode, if_pos (hname.trans hn)]
        · rw [hmeta, hnd]
      · rw [if_neg hn] at hfind
        obtain ⟨nd2, hf2, hm2⟩ := ih t2 name nd htail hfind
        refine ⟨nd2, ?_, hm2⟩
        rw [findNode, if_neg (fun hc => hn ((hname.symm.trans hc)))]
        exact hf2

theorem nodeMeta_writable {a b : Node} (h : nodeMeta a = nodeMeta b) :
    a.writable = b.writable := by
  have := congrArg Node.writable h
  simpa [nodeMeta] using this

theorem nodeMeta_hasSetValue {a b : Node} (h : nodeMeta a = nodeMeta b) :
    a.hasSetValue = b.hasSetValue := by
  have := congrArg Node.hasSetValue h
  simpa [nodeMeta] using this

theorem valueFits_of_meta {a b : Node} (v : PyValue)
    (h : nodeMeta a = nodeMeta b) (hf : valueFits b v) : valueFits a v := by
  obtain ⟨ka, wa, ra, sa, ga, za1, za2, qa1, qa2, va⟩ := a
  obtain ⟨kb, wb, rb, sb, gb, zb1, zb2, qb1, qb2, vb⟩ := b
  simp only [nodeMeta, Node.mk.injEq] at h
  obtain ⟨hk, hw, hr, hs, hg, hz1, hz2, hq1, hq2, _⟩ := h
  subst hk hw hr hs hg hz1 hz2 hq1 hq2
  exact hf

theorem zip_self_map {α β : Type} (l : List α) (f : α → β) :
    l.zip (l.map f) = l.map (fun a => (a, f a)) := by
  induction l with
  | nil => rfl
  | cons a tl ih => simp [ih]

theorem afterTrigSetup_coreEq (s : CamState) : CoreEq (afterTrigSetup s) s := by
  unfold afterTrigSetup
  refine coreEq_trans (coreEq_of_nodes rfl rfl rfl) ?_
  exact coreEq_trans (set_pyspin_coreEq _ _ _)
    (coreEq_trans (set_pyspin_coreEq _ _ _) (set_pyspin_coreEq _ _ _))

theorem afterGainSetup_coreEq (s : CamState) : CoreEq (afterGainSetup s) s := by
  unfold afterGainSetup
  exact coreEq_trans (set_pyspin_coreEq _ _ _)
    (coreEq_trans (set_pyspin_coreEq _ _ _) (get_pyspin_coreEq _ _))

theorem endAcquisition_coreEq (s : CamState) : CoreEq (endAcquisition s) s :=
  coreEq_of_nodes rfl rfl rfl

/-- C1 (amended): when every capture succeeds, `readExposureBracketing`
restores the six snapshotted nodes (TriggerSelector, TriggerMode,
TriggerSource, ExposureTime, ExposureAuto, GainAuto) and the
`auto_software_trigger_execute` flag, so the post-call property state
equals the pre-call snapshot on the success path. -/
theorem readExposureBracketing_restores_on_success
    (s sfin : CamState) (ts : List Rat) (fr : Option (List Frame))
    (hop : s.opened = true)
    (hintact : ∀ name ∈ bracketNodeNames, NodeIntact s name)
    (hres : readExposureBracketing s ts = Outcome.ok (true, fr) sfin) :
    (∀ name ∈ bracketNodeNames,
      (findNode sfin.nodes name).map Node.value =
        (findNode s.nodes name).map Node.value) ∧
    sfin.auto_software_trigger_execute = s.auto_software_trigger_execute := by
  have hsnap : snapshotValues s bracketNodeNames =
      (bracketNodeNames.map (valueAt s), s) :=
    snapshot_intact bracketNodeNames s hop (fun n hn => by
      obtain ⟨nd, hf, hw, hr, hs, hg, hfit⟩ := hintact n hn
      exact ⟨nd, hf, hr, hg⟩)
  rcases hloop : bracketCapture (afterGainSetup (afterTrigSetup s)) ts
      true [] with ⟨⟨ret, imlist⟩, sI⟩ | ⟨m, sI⟩
  · rcases ret with _ | _
    · simp only [readExposureBracketing, hsnap, hloop] at hres
      rw [if_pos trivial] at hres
      simp at hres
    · simp only [readExposureBracketing, hsnap, hloop] at hres
      rw [if_neg (by simp)] at hres
      have hsfin : sfin =
          { restoreValues (endAcquisition sI)
              (bracketNodeNames.zip (bracketNodeNames.map (valueAt s))) with
            auto_software_trigger_execute :=
              s.auto_software_trigger_execute } := by
        cases hres
        rfl
      constructor
      · intro name hn
        have hcore : CoreEq (endAcquisition sI) s :=
          coreEq_trans (endAcquisition_coreEq sI)
            (coreEq_trans
              (by
                have := bracketCapture_coreEq ts
                  (afterGainSetup (afterTrigSetup s)) true []
                rw [hloop] at this
                exact this)
              (coreEq_trans (afterGainSetup_coreEq _)
                (afterTrigSetup_coreEq s)))
        have hopJ : (endAcquisition sI).opened = true := by
          rw [hcore.2.1]
          exact hop
        have hzip : bracketNodeNames.zip (bracketNodeNames.map (valueAt s)) =
            bracketNodeNames.map (fun n => (n, valueAt s n)) :=
          zip_self_map bracketNodeNames (valueAt s)
        have hkeys : ((bracketNodeNames.map (fun n => (n, valueAt s n))).map
            Prod.fst) = bracketNodeNames := by
          rw [List.map_map]
          exact List.map_id bracketNodeNames
        have hint2 : ∀ p ∈ bracketNodeNames.map (fun n => (n, valueAt s n)),
            ∃ nd, findNode (endAcquisition sI).nodes p.1 = some nd ∧
              nd.writable = true ∧ nd.hasSetValue = true ∧
              valueFits nd p.2 := by
          intro p hp
          obtain ⟨n0, hn0, hpe⟩ := List.mem_map.mp hp
          obtain ⟨nd, hf, hw, hr, hs2, hg, hfit⟩ := hintact n0 hn0
          obtain ⟨nd2, hf2, hm2⟩ :=
            findNode_of_shape (endAcquisition sI).nodes s.nodes n0 nd
              hcore.1 hf
          have hv : valueAt s n0 = nd.value := by
            unfold valueAt
            rw [hf]
          refine ⟨nd2, ?_, ?_, ?_, ?_⟩
          · rw [← hpe]
            exact hf2
          · rw [nodeMeta_writable hm2]
            exact hw
          · rw [nodeMeta_hasSetValue hm2]
            exact hs2
          · rw [← hpe]
            dsimp only
            rw [hv]
            exact valueFits_of_meta nd.value hm2 hfit
        have hnodup : ((bracketNodeNames.map (fun n => (n, valueAt s n))).map
            Prod.fst).Nodup := by
          rw [hkeys]
          decide
        have hrest := restore_restores
          (bracketNodeNames.map (fun n => (n, valueAt s n)))
          (endAcquisition sI) hopJ hint2 hnodup
          (name, valueAt s name) (List.mem_map_of_mem _ hn)
        obtain ⟨nd, hf, hw, hr, hs2, hg, hfit⟩ := hintact name hn
        have hv : valueAt s name = nd.value := by
          unfold valueAt
          rw [hf]
        rw [hsfin]
        have hnodes : ({ restoreValues (endAcquisition sI)
            (bracketNodeNames.zip (bracketNodeNames.map (valueAt s))) with
            auto_software_trigger_execute :=
              s.auto_software_trigger_execute } : CamState).nodes =
            (restoreValues (endAcquisition sI)
              (bracketNodeNames.map (fun n => (n, valueAt s n)))).nodes := by
          rw [hzip]
        rw [hnodes, hrest, hf]
        dsimp only
        rw [hv]
        rfl
      · rw [hsfin]
  · simp only [readExposureBracketing, hsnap, hloop] at hres
    exact (Outcome.noConfusion hres)

theorem demoBracketCam_intact :
    ∀ name ∈ bracketNodeNames, NodeIntact demoBracketCam name := by
  intro name hn
  simp only [bracketNodeNames, List.mem_cons, List.not_mem_nil, or_false]
    at hn
  rcases hn with rfl | rfl | rfl | rfl | rfl | rfl
  · exact ⟨{ kind := NodeKind.enumeration, value := PyValue.vint 1 },
      by decide, rfl, rfl, rfl, rfl, trivial⟩
  · exact ⟨{ kind := NodeKind.enumeration, value := PyValue.vint 0 },
      by decide, rfl, rfl, rfl, rfl, trivial⟩
  · exact ⟨{ kind := NodeKind.enumeration, value := PyValue.vint 0 },
      by decide, rfl, rfl, rfl, rfl, trivial⟩
  · exact ⟨demoExposureNode, by decide, rfl, rfl, rfl, rfl,
      by constructor <;> norm_num [demoExposureNode]⟩
  · exact ⟨{ kind := NodeKind.enumeration, value := PyValue.vint 2 },
      by decide, rfl, rfl, rfl, rfl, trivial⟩
  · exact ⟨{ kind := NodeKind.enumeration, value := PyValue.vint 2 },
      by decide, rfl, rfl, rfl, rfl, trivial⟩

/-- Witness for C1's amended theorem at a concrete successful run. -/
theorem readExposureBracketing_restores_witness :
    (∀ name ∈ bracketNodeNames,
      (findNode (Outcome.state
          (readExposureBracketing demoBracketCam [100, 200])).nodes
          name).map Node.value =
        (findNode demoBracketCam.nodes name).map Node.value) ∧
    (Outcome.state (readExposureBracketing demoBracketCam
        [100, 200])).auto_software_trigger_execute =
      demoBracketCam.auto_software_trigger_execute :=
  readExposureBracketing_restores_on_success demoBracketCam
    (Outcome.state (readExposureBracketing demoBracketCam [100, 200]))
    [100, 200] (some [[4], [5]]) (by decide) demoBracketCam_intact
    (by decide)

/-- Counterexample for C1 as stated: when the second exposure's read
fails, the call returns `(False, None)` with the camera still in the
forced software-trigger configuration — `TriggerMode` stays `On` (code 1)
although the snapshot had `Off` (code 0), and the auto-trigger flag stays
`true` although it was `false` before the call. -/
theorem readExposureBracketing_failure_skips_restore :
    Outcome.retOf (readExposureBracketing demoBracketFailCam [100, 200]) =
      some (false, none) ∧
    (findNode (Outcome.state (readExposureBracketing demoBracketFailCam
        [100, 200])).nodes "TriggerMode").map Node.value =
      some (PyValue.vint 1) ∧
    (findNode demoBracketFailCam.nodes "TriggerMode").map Node.value =
      some (PyValue.vint 0) ∧
    (Outcome.state (readExposureBracketing demoBracketFailCam
        [100, 200])).auto_software_trigger_execute = true ∧
    demoBracketFailCam.auto_software_trigger_execute = false := by
  decide

theorem all_take {α : Type} (l : List α) (p : α → Bool) (n : Nat)
    (h : l.all p = true) : (l.take n).all p = true := by
  rw [List.all_eq_true] at h ⊢
  exact fun a ha => h a (List.take_subset n l ha)

theorem all_drop {α : Type} (l : List α) (p : α → Bool) (n : Nat)
    (h : l.all p = true) : (l.drop n).all p = true := by
  rw [List.all_eq_true] at h ⊢
  exact fun a ha => h a (List.drop_subset n l ha)

/-- One `read` with `average_num = 1` on a fully-complete script: succeeds
and consumes exactly one driver event. -/
theorem readEX_step (s : CamState)
    (hop : s.opened = true) (havg : s.average_num = 1)
    (hall : s.driver.all isCompleteImg = true)
    (hlen : 1 ≤ s.driver.length) :
    ∃ s2 f, readEX s = Outcome.ok (true, some f) s2 ∧
      s2.opened = true ∧ s2.average_num = 1 ∧
      s2.driver.all isCompleteImg = true ∧
      s2.driver.length + 1 = s.driver.length := by
  have ht : s.average_num.toNat = 1 := by rw [havg]; rfl
  obtain ⟨s2, heq, hdr, hnd, hopn, havg2, haut, hwarn⟩ :=
    readEX_complete s (by simpa [isOpened] using hop)
      (by rw [havg]) (by rw [ht]; exact all_take _ _ _ hall)
      (by rw [ht]; exact hlen)
  refine ⟨s2, _, heq, ?_, ?_, ?_, ?_⟩
  · rw [hopn]; exact hop
  · rw [havg2]; exact havg
  · rw [hdr]; exact all_drop _ _ _ hall
  · rw [hdr, ht, List.length_drop]
    omega

theorem dummyReads_complete (n : Nat) :
    ∀ s : CamState, s.opened = true → s.average_num = 1 →
    s.driver.all isCompleteImg = true → n ≤ s.driver.length →
    ∃ s2, dummyReads s n = Outcome.ok () s2 ∧
      s2.opened = true ∧ s2.average_num = 1 ∧
      s2.driver.all isCompleteImg = true ∧
      s2.driver.length + n = s.driver.length := by
  induction n with
  | zero =>
    intro s hop havg hall _
    exact ⟨s, rfl, hop, havg, hall, rfl⟩
  | succ k ih =>
    intro s hop havg hall hlen
    obtain ⟨s1, f, heq, hop1, havg1, hall1, hlen1⟩ :=
      readEX_step s hop havg hall (by omega)
    obtain ⟨s2, heq2, hop2, havg2, hall2, hlen2⟩ :=
      ih s1 hop1 havg1 hall1 (by omega)
    refine ⟨s2, ?_, hop2, havg2, hall2, by omega⟩
    rw [dummyReads, heq]
    dsimp only
    exact heq2

theorem setPropExposure_fields (s : CamState) (v : PyValue) :
    (setPropExposure s v).2.opened = s.opened ∧
    (setPropExposure s v).2.driver = s.driver ∧
    (setPropExposure s v).2.average_num = s.average_num := by
  unfold setPropExposure
  split
  · exact ⟨(set_pyspin_fields _ _ _).2.1, (set_pyspin_fields _ _ _).2.2.1,
      (set_pyspin_fields _ _ _).2.2.2.1⟩
  · constructor
    · rw [(set_pyspin_fields _ _ _).2.1, (set_pyspin_fields _ _ _).2.1]
    · constructor
      · rw [(set_pyspin_fields _ _ _).2.2.1, (set_pyspin_fields _ _ _).2.2.1]
      · rw [(set_pyspin_fields _ _ _).2.2.2.1,
          (set_pyspin_fields _ _ _).2.2.2.1]

theorem bracketCapture_complete (ts : List Rat) :
    ∀ (s : CamState) (first : Bool) (acc : List Frame),
    s.opened = true → s.average_num = 1 →
    s.driver.all isCompleteImg = true →
    ts.length + (if first = true ∧ ts ≠ [] then 3 else 0) ≤
      s.driver.length →
    ∃ s2 frames, bracketCapture s ts first acc =
        Outcome.ok (true, acc ++ frames) s2 ∧
      frames.length = ts.length ∧
      s2.driver.length +
        (ts.length + (if first = true ∧ ts ≠ [] then 3 else 0)) =
        s.driver.length ∧
      s2.opened = true ∧ s2.average_num = 1 ∧
      s2.driver.all isCompleteImg = true := by
  induction ts with
  | nil =>
    intro s first acc hop havg hall _
    exact ⟨s, [], by simp [bracketCapture], rfl, by simp, hop, havg, hall⟩
  | cons t rest ih =>
    intro s first acc hop havg hall hlen
    rcases hsp : setPropExposure s (PyValue.vfloat t) with ⟨b1, s1⟩
    have hf1 := setPropExposure_fields s (PyValue.vfloat t)
    rw [hsp] at hf1
    have hop1 : s1.opened = true := by rw [hf1.1]; exact hop
    have havg1 : s1.average_num = 1 := by rw [hf1.2.2]; exact havg
    have hdr1 : s1.driver = s.driver := hf1.2.1
    have hall1 : s1.driver.all isCompleteImg = true := by
      rw [hdr1]; exact hall
    have hnr : ¬ (false = true ∧ rest ≠ ([] : List Rat)) := by simp
    rcases first with _ | _
    · have hnc : ¬ (false = true ∧ t :: rest ≠ ([] : List Rat)) := by simp
      rw [if_neg hnc] at hlen
      simp only [List.length_cons] at hlen
      obtain ⟨s3, f, hread, hop3, havg3, hall3, hlen3⟩ :=
        readEX_step s1 hop1 havg1 hall1 (by rw [hdr1]; omega)
      obtain ⟨s4, frames, hloop, hfl, hcount, hop4, havg4, hall4⟩ :=
        ih s3 false (acc ++ [f]) hop3 havg3 hall3
          (by
            rw [if_neg hnr]
            rw [hdr1] at hlen3
            omega)
      rw [if_neg hnr] at hcount
      refine ⟨s4, f :: frames, ?_, by simp [hfl], ?_, hop4, havg4, hall4⟩
      · rw [bracketCapture, hsp]
        dsimp only
        rw [if_neg (by simp : ¬ (false = true))]
        dsimp only
        rw [hread]
        dsimp only
        rw [if_neg (by simp : ¬ (true = false))]
        simp only [Option.getD_some]
        rw [hloop]
        simp
      · rw [if_neg hnc]
        simp only [List.length_cons]
        rw [hdr1] at hlen3
        omega
    · have hpc : (true = true ∧ t :: rest ≠ ([] : List Rat)) := by simp
      rw [if_pos hpc] at hlen
      simp only [List.length_cons] at hlen
      obtain ⟨s2, hdum, hop2, havg2, hall2, hlen2⟩ :=
        dummyReads_complete 3 s1 hop1 havg1 hall1 (by rw [hdr1]; omega)
      obtain ⟨s3, f, hread, hop3, havg3, hall3, hlen3⟩ :=
        readEX_step s2 hop2 havg2 hall2 (by
          rw [hdr1] at hlen2
          omega)
      obtain ⟨s4, frames, hloop, hfl, hcount, hop4, havg4, hall4⟩ :=
        ih s3 false (acc ++ [f]) hop3 havg3 hall3
          (by
            rw [if_neg hnr]
            rw [hdr1] at hlen2
            omega)
      rw [if_neg hnr] at hcount
      refine ⟨s4, f :: frames, ?_, by simp [hfl], ?_, hop4, havg4, hall4⟩
      · rw [bracketCapture, hsp]
        dsimp only
        rw [if_pos rfl, hdum]
        dsimp only
        rw [hread]
        dsimp only
        rw [if_neg (by simp : ¬ (true = false))]
        simp only [Option.getD_some]
        rw [hloop]
        simp
      · rw [if_pos hpc]
        simp only [List.length_cons]
        rw [hdr1] at hlen2
        omega

theorem snapshotValues_fields (l : List String) :
    ∀ s : CamState, (snapshotValues s l).2.opened = s.opened ∧
      (snapshotValues s l).2.driver = s.driver ∧
      (snapshotValues s l).2.average_num = s.average_num := by
  induction l with
  | nil => intro s; exact ⟨rfl, rfl, rfl⟩
  | cons name tl ih =>
    intro s
    rcases hget : get_pyspin_value s name with ⟨v, s1⟩
    have hg := get_pyspin_fields s name
    rw [hget] at hg
    rcases htl : snapshotValues s1 tl with ⟨vs, s2⟩
    have ht := ih s1
    rw [htl] at ht
    rw [snapshotValues, hget]
    dsimp only
    rw [htl]
    exact ⟨ht.1.trans hg.2.1, ht.2.1.trans hg.2.2.1,
      ht.2.2.trans hg.2.2.2.1⟩

theorem afterTrigSetup_fields (s : CamState) :
    (afterTrigSetup s).opened = s.opened ∧
    (afterTrigSetup s).driver = s.driver ∧
    (afterTrigSetup s).average_num = s.average_num := by
  unfold afterTrigSetup
  refine ⟨?_, ?_, ?_⟩
  · show (set_pyspin_value _ _ _).2.opened = s.opened
    rw [(set_pyspin_fields _ _ _).2.1, (set_pyspin_fields _ _ _).2.1,
      (set_pyspin_fields _ _ _).2.1]
  · show (set_pyspin_value _ _ _).2.driver = s.driver
    rw [(set_pyspin_fields _ _ _).2.2.1, (set_pyspin_fields _ _ _).2.2.1,
      (set_pyspin_fields _ _ _).2.2.1]
  · show (set_pyspin_value _ _ _).2.average_num = s.average_num
    rw [(set_pyspin_fields _ _ _).2.2.2.1, (set_pyspin_fields _ _ _).2.2.2.1,
      (set_pyspin_fields _ _ _).2.2.2.1]

theorem afterGainSetup_fields (s : CamState) :
    (afterGainSetup s).opened = s.opened ∧
    (afterGainSetup s).driver = s.driver ∧
    (afterGainSetup s).average_num = s.average_num := by
  unfold afterGainSetup
  refine ⟨?_, ?_, ?_⟩
  · rw [(set_pyspin_fields _ _ _).2.1, (set_pyspin_fields _ _ _).2.1,
      (get_pyspin_fields _ _).2.1]
  · rw [(set_pyspin_fields _ _ _).2.2.1, (set_pyspin_fields _ _ _).2.2.1,
      (get_pyspin_fields _ _).2.2.1]
  · rw [(set_pyspin_fields _ _ _).2.2.2.1, (set_pyspin_fields _ _ _).2.2.2.1,
      (get_pyspin_fields _ _).2.2.2.1]

theorem restoreValues_driver (l : List (String × PyValue)) :
    ∀ s : CamState, (restoreValues s l).driver = s.driver := by
  induction l with
  | nil => intro s; rfl
  | cons hd tl ih =>
    intro s
    obtain ⟨name, v⟩ := hd
    rw [restoreValues, ih, (set_pyspin_fields s name v).2.2.1]

/-- C6 (amended): on a fully-complete script with `average_num = 1`, a
bracketing series over `k ≥ 1` exposures succeeds, retains exactly one
frame per exposure, and consumes exactly `k + 3` driver frames in total:
the three warm-up reads are discarded only before the first exposure's
capture, and every later exposure's frame is captured immediately after
its exposure is set.  (A failed read would abort the remaining captures,
as in the C1 counterexample.) -/
theorem readExposureBracketing_consumption
    (s : CamState) (t0 : Rat) (rest : List Rat)
    (hop : s.opened = true)
    (havg : s.average_num = 1)
    (hall : s.driver.all isCompleteImg = true)
    (hlen : rest.length + 1 + 3 ≤ s.driver.length) :
    ∃ sfin frames, readExposureBracketing s (t0 :: rest) =
        Outcome.ok (true, some frames) sfin ∧
      frames.length = rest.length + 1 ∧
      sfin.driver.length + (rest.length + 1 + 3) = s.driver.length := by
  rcases hsnap : snapshotValues s bracketNodeNames with ⟨vals, sA⟩
  have hsf := snapshotValues_fields bracketNodeNames s
  rw [hsnap] at hsf
  have htf := afterTrigSetup_fields sA
  have hgf := afterGainSetup_fields (afterTrigSetup sA)
  have hopH : (afterGainSetup (afterTrigSetup sA)).opened = true := by
    rw [hgf.1, htf.1, hsf.1]; exact hop
  have havgH : (afterGainSetup (afterTrigSetup sA)).average_num = 1 := by
    rw [hgf.2.2, htf.2.2, hsf.2.2]; exact havg
  have hdrH : (afterGainSetup (afterTrigSetup sA)).driver = s.driver := by
    rw [hgf.2.1, htf.2.1, hsf.2.1]
  have hallH : (afterGainSetup (afterTrigSetup sA)).driver.all
      isCompleteImg = true := by
    rw [hdrH]; exact hall
  have hpc : (true = true ∧ t0 :: rest ≠ ([] : List Rat)) := by simp
  obtain ⟨s2, frames, hloop, hfl, hcount, _, _, _⟩ :=
    bracketCapture_complete (t0 :: rest)
      (afterGainSetup (afterTrigSetup sA)) true [] hopH havgH hallH
      (by
        rw [if_pos hpc, hdrH]
        simp only [List.length_cons]
        omega)
  rw [if_pos hpc, hdrH] at hcount
  simp only [List.length_cons] at hcount hfl
  rw [List.nil_append] at hloop
  refine ⟨{ restoreValues (endAcquisition s2)
      (bracketNodeNames.zip vals) with
    auto_software_trigger_execute :=
      sA.auto_software_trigger_execute }, frames, ?_, hfl, ?_⟩
  · rw [readExposureBracketing, hsnap]
    dsimp only
    rw [hloop]
    dsimp only
    rw [if_neg (by simp : ¬ (true = false))]
  · have hd2 : ({ restoreValues (endAcquisition s2)
        (bracketNodeNames.zip vals) with
      auto_software_trigger_execute :=
        sA.auto_software_trigger_execute } : CamState).driver =
        s2.driver := by
      show (restoreValues (endAcquisition s2)
        (bracketNodeNames.zip vals)).driver = s2.driver
      rw [restoreValues_driver]
      rfl
    rw [hd2]
    omega

/-- Witness for C6's amended theorem at a concrete run: two exposures,
five scripted frames, all consumed, two retained. -/
theorem readExposureBracketing_consumption_witness :
    ∃ sfin frames, readExposureBracketing demoBracketCam [100, 200] =
        Outcome.ok (true, some frames) sfin ∧
      frames.length = [(200 : Rat)].length + 1 ∧
      sfin.driver.length + ([(200 : Rat)].length + 1 + 3) =
        demoBracketCam.driver.length :=
  readExposureBracketing_consumption demoBracketCam 100 [200]
    (by decide) (by decide) (by decide) (by decide)

/-- Counterexample for C6 as stated: with exactly five scripted frames,
the two-exposure series still succeeds, retaining the fourth and fifth
scripted frames — adjacent deliveries.  If a warm-up discard happened
before the second exposure's capture as well (the claim says the discards
happen for each exposure, three per the code), the second retained frame
could not be the immediate successor of the first and the five-frame
script could not complete (2 × (3 + 1) = 8 > 5 frames would be needed). -/
theorem readExposureBracketing_no_second_warmup :
    Outcome.retOf (readExposureBracketing demoBracketCam [100, 200]) =
      some (true, some [[4], [5]]) ∧
    demoBracketCam.driver.map eventFrame =
      [[1], [2], [3], [4], [5]] ∧
    (Outcome.state (readExposureBracketing demoBracketCam
        [100, 200])).driver = [] := by
  decide

theorem hdrEpsilon_pos : 0 < hdrEpsilon := by
  unfold hdrEpsilon
  positivity

theorem sampleWeight_nonneg (z : Real) : 0 ≤ sampleWeight z := by
  unfold sampleWeight gaussWeight
  have h1 : (0:Real) ≤ if hdrZmin ≤ z ∧ z ≤ hdrZmax then 1 else 0 := by
    split <;> norm_num
  exact mul_nonneg (Real.exp_pos _).le h1

theorem sampleWeight_zero_outside (z : Real)
    (h : z < hdrZmin ∨ hdrZmax < z) : sampleWeight z = 0 := by
  unfold sampleWeight
  rw [if_neg, mul_zero]
  rcases h with h | h
  · exact fun hc => absurd hc.1 (not_le.mpr h)
  · exact fun hc => absurd hc.2 (not_le.mpr h)

theorem foldl_max_ge_init (xs : List Real) :
    ∀ a : Real, a ≤ xs.foldl max a := by
  induction xs with
  | nil => intro a; exact le_refl a
  | cons x xs ih =>
    intro a
    exact le_trans (le_max_left a x) (ih (max a x))

theorem maxList_pos (l : List Real) (hne : l ≠ [])
    (h : ∀ x ∈ l, 0 < x) : 0 < maxList l := by
  cases l with
  | nil => exact absurd rfl hne
  | cons x xs =>
    have hx : 0 < x := h x (List.mem_cons_self _ _)
    exact lt_of_lt_of_le hx (foldl_max_ge_init xs x)

theorem foldl_min_pos (xs : List Real) :
    ∀ a : Real, 0 < a → (∀ x ∈ xs, 0 < x) → 0 < xs.foldl min a := by
  induction xs with
  | nil => intro a ha _; exact ha
  | cons x xs ih =>
    intro a ha hx
    exact ih (min a x)
      (lt_min ha (hx x (List.mem_cons_self _ _)))
      (fun y hy => hx y (List.mem_cons_of_mem _ hy))

theorem minList_pos (l : List Real) (hne : l ≠ [])
    (h : ∀ x ∈ l, 0 < x) : 0 < minList l := by
  cases l with
  | nil => exact absurd rfl hne
  | cons x xs =>
    exact foldl_min_pos xs x (h x (List.mem_cons_self _ _))
      (fun y hy => h y (List.mem_cons_of_mem _ hy))

theorem sum_map_add_const (l : List Real) (f : Real → Real) (c : Real) :
    (l.map (fun x => f x + c)).sum = (l.map f).sum + l.length * c := by
  induction l with
  | nil => simp
  | cons x xs ih =>
    simp only [List.map_cons, List.sum_cons, ih, List.length_cons]
    push_cast
    ring

theorem sum_sampleWeights_nonneg (zs : List Real) :
    0 ≤ (zs.map sampleWeight).sum := by
  apply List.sum_nonneg
  intro x hx
  obtain ⟨z, _, rfl⟩ := List.mem_map.mp hx
  exact sampleWeight_nonneg z

/-- Pixel `p` of `mergeHDR` is `mergePixel` of column `p`. -/
theorem mergeHDR_getD (imlist : List (List Real)) (times : List Real)
    (tref : Real) (p : Nat) (hp : p < (imlist.headD []).length) :
    (mergeHDR imlist times tref).getD p 0 =
      mergePixel (imlist.map (fun im => im.getD p 0)) times tref := by
  unfold mergeHDR
  rw [List.getD_eq_getElem _ _ (by simpa using hp)]
  simp

/-- C3 (amended): for a pixel not hit by either fallback, `mergeHDR`
computes `Σ((w_i + ε) · z_i / (t_i / t_ref)) / (Σ w_i + N·ε)` — i.e.
`np.average(z / t, weights = w + ε)`, whose ε shift also enters the
numerator and appears `N` times (once per sample) in the denominator —
where `w_i` is the Gaussian weight forced to zero outside the valid band
`[0.01, 0.99]`; the denominator is at least `N·ε > 0`, so the division is
never by zero even when every sample of the pixel is masked. -/
theorem mergeHDR_main_formula (imlist : List (List Real))
    (times : List Real) (tref : Real) (p : Nat)
    (hp : p < (imlist.headD []).length)
    (hne : imlist ≠ [])
    (hnu : ¬ ∀ im ∈ imlist, im.getD p 0 < hdrZmin)
    (hno : ¬ ∀ im ∈ imlist, hdrZmax < im.getD p 0) :
    (mergeHDR imlist times tref).getD p 0 =
      (List.zipWith (fun r w => w * r)
          (List.zipWith (fun z t => z / (t / tref))
            (imlist.map (fun im => im.getD p 0)) times)
          ((imlist.map (fun im => im.getD p 0)).map
            (fun z => sampleWeight z + hdrEpsilon))).sum /
        (((imlist.map (fun im => im.getD p 0)).map sampleWeight).sum +
          imlist.length * hdrEpsilon) ∧
    0 < ((imlist.map (fun im => im.getD p 0)).map sampleWeight).sum +
      imlist.length * hdrEpsilon ∧
    (∀ z : Real, z < hdrZmin ∨ hdrZmax < z → sampleWeight z = 0) := by
  refine ⟨?_, ?_, fun z hz => sampleWeight_zero_outside z hz⟩
  · rw [mergeHDR_getD _ _ _ _ hp]
    unfold mergePixel
    rw [if_neg (by simpa using hno), if_neg (by simpa using hnu)]
    unfold mainMerge
    rw [sum_map_add_const, List.length_map]
  · have h1 := sum_sampleWeights_nonneg (imlist.map (fun im => im.getD p 0))
    have hN : (0 : Real) < imlist.length := by
      exact_mod_cast List.length_pos.mpr hne
    have h2 : (0 : Real) < imlist.length * hdrEpsilon :=
      mul_pos hN hdrEpsilon_pos
    linarith

/-- Witness for C3's amended theorem at a concrete in-band pixel. -/
theorem mergeHDR_main_formula_witness :
    (mergeHDR [[1/2]] [1] 1).getD 0 0 =
      (List.zipWith (fun r w => w * r)
          (List.zipWith (fun z t => z / (t / 1))
            (([[1/2]] : List (List Real)).map (fun im => im.getD 0 0)) [1])
          ((([[1/2]] : List (List Real)).map (fun im => im.getD 0 0)).map
            (fun z => sampleWeight z + hdrEpsilon))).sum /
        (((([[1/2]] : List (List Real)).map
            (fun im => im.getD 0 0)).map sampleWeight).sum +
          ([[1/2]] : List (List Real)).length * hdrEpsilon) ∧
    0 < ((([[1/2]] : List (List Real)).map
        (fun im => im.getD 0 0)).map sampleWeight).sum +
      ([[1/2]] : List (List Real)).length * hdrEpsilon ∧
    (∀ z : Real, z < hdrZmin ∨ hdrZmax < z → sampleWeight z = 0) :=
  mergeHDR_main_formula [[1/2]] [1] 1 0 (by simp) (by simp)
    (by
      intro h
      have h2 := h [(1 : Real)/2] (by simp)
      norm_num [hdrZmin] at h2)
    (by
      intro h
      have h2 := h [(1 : Real)/2] (by simp)
      norm_num [hdrZmax] at h2)

/-- Counterexample for C3 as stated: for a two-sample pixel with one
sample below and one above the valid band (both masked), the code's
output is the ε-weighted mean `(z₁/t₁ + z₂/t₂)/2 = 1001/4000 ≠ 0`,
whereas the claim's formula `Σ(w·z/t)/(Σw + ε)` evaluates to `0`. -/
theorem mergeHDR_formula_at_masked_pixel :
    mergeHDR [[1/1000], [999/1000]] [1, 2] 1 = [1001/4000] ∧
    claimFormulaPixel [1/1000, 999/1000] [1, 2] 1 = 0 ∧
    (1001/4000 : Real) ≠ 0 := by
  have hw1 : sampleWeight (1/1000) = 0 :=
    sampleWeight_zero_outside _ (Or.inl (by norm_num [hdrZmin]))
  have hw2 : sampleWeight (999/1000) = 0 :=
    sampleWeight_zero_outside _ (Or.inr (by norm_num [hdrZmax]))
  refine ⟨?_, ?_, by norm_num⟩
  · unfold mergeHDR
    simp only [List.headD_cons, List.length_cons, List.length_nil,
      List.length_singleton, List.range_succ, List.range_zero,
      List.nil_append, List.map_cons, List.map_nil, List.getD_cons_zero]
    unfold mergePixel
    rw [if_neg (by
      intro h
      have h2 := h (1/1000) (by simp)
      norm_num [hdrZmax] at h2)]
    rw [if_neg (by
      intro h
      have h2 := h (999/1000) (by simp)
      norm_num [hdrZmin] at h2)]
    unfold mainMerge
    simp only [List.map_cons, List.map_nil, List.zipWith_cons_cons,
      List.zipWith_nil_right, List.zipWith_nil_left, List.sum_cons,
      List.sum_nil, hw1, hw2]
    rw [List.cons.injEq]
    refine ⟨?_, rfl⟩
    norm_num [hdrEpsilon]
  · unfold claimFormulaPixel
    simp only [List.map_cons, List.map_nil, List.zipWith_cons_cons,
      List.zipWith_nil_right, List.zipWith_nil_left, List.sum_cons,
      List.sum_nil, hw1, hw2]
    norm_num

/-- C8: a pixel below the valid band in every sample gets exactly
`Zmin / max(t_i / t_ref)` and a pixel above the band in every sample gets
exactly `Zmax / min(t_i / t_ref)`; these overrides are applied after the
main merge, replace it only for such pixels, and with positive exposure
times the override denominators are positive, so the output is a
well-defined finite real. -/
theorem mergeHDR_under_over (imlist : List (List Real)) (times : List Real)
    (tref : Real) (p : Nat)
    (hp : p < (imlist.headD []).length)
    (hne : imlist ≠ [])
    (htne : times ≠ [])
    (ht : ∀ t ∈ times, 0 < t)
    (htref : 0 < tref) :
    ((∀ im ∈ imlist, im.getD p 0 < hdrZmin) →
      (mergeHDR imlist times tref).getD p 0 =
        hdrZmin / maxList (times.map (fun t => t / tref)) ∧
      0 < maxList (times.map (fun t => t / tref))) ∧
    ((∀ im ∈ imlist, hdrZmax < im.getD p 0) →
      (mergeHDR imlist times tref).getD p 0 =
        hdrZmax / minList (times.map (fun t => t / tref)) ∧
      0 < minList (times.map (fun t => t / tref))) := by
  have hpos : ∀ x ∈ times.map (fun t => t / tref), 0 < x := by
    intro x hx
    obtain ⟨t, htm, rfl⟩ := List.mem_map.mp hx
    exact div_pos (ht t htm) htref
  have hmne : times.map (fun t => t / tref) ≠ [] := by
    simpa using htne
  rcases imlist with _ | ⟨im0, restim⟩
  · exact absurd rfl hne
  constructor
  · intro hunder
    have hnotover : ¬ ∀ z ∈ (im0 :: restim).map (fun im => im.getD p 0),
        hdrZmax < z := by
      intro hov
      have h1 := hunder im0 (List.mem_cons_self _ _)
      have h2 := hov (im0.getD p 0) (by simp)
      norm_num [hdrZmin, hdrZmax] at h1 h2
      linarith
    refine ⟨?_, maxList_pos _ hmne hpos⟩
    rw [mergeHDR_getD _ _ _ _ hp]
    unfold mergePixel
    rw [if_neg hnotover, if_pos (by simpa using hunder)]
  · intro hover
    refine ⟨?_, minList_pos _ hmne hpos⟩
    rw [mergeHDR_getD _ _ _ _ hp]
    unfold mergePixel
    rw [if_pos (by simpa using hover)]

/-- Witness for C8 at a concrete input: both samples of the pixel lie
below the valid band, so the output is `Zmin / max(t / t_ref)`. -/
theorem mergeHDR_under_over_witness :
    (mergeHDR [[1/1000], [1/500]] [1, 2] 1).getD 0 0 =
      hdrZmin / maxList ([(1 : Real), 2].map (fun t => t / 1)) ∧
    0 < maxList ([(1 : Real), 2].map (fun t => t / 1)) :=
  (mergeHDR_under_over [[1/1000], [1/500]] [1, 2] 1 0 (by simp) (by simp)
    (by simp)
    (by
      intro t htm
      simp only [List.mem_cons, List.not_mem_nil, or_false] at htm
      rcases htm with rfl | rfl <;> norm_num)
    (by norm_num)).1
    (by
      intro im him
      simp only [List.mem_cons, List.not_mem_nil, or_false] at him
      rcases him with rfl | rfl <;> norm_num [hdrZmin])
